import Mathlib

/-!
# Space ledger and write throttle of `dsl_pool.c`

A shallow embedding of the space-accounting and write-throttle code of
`sys/cddl/contrib/opensolaris/uts/common/fs/zfs/dsl_pool.c`:

* `dsl_pool_tempreserve_space`, `dsl_pool_tempreserve_clear` (the ledger of
  speculative reservations),
* `dsl_pool_memory_pressure`,
* `dsl_pool_sync`: the snapshot of `dp_space_towrite` at its start, the reset
  of the ledger slot and the recomputation of the write limit at its end; the
  synchronisation work in between is a parameter (`sync_env.sync_phases`),
  which `dsl_pool_sync_phases` fills in from step 7 on (fold of the meta-objset
  deltas, meta-objset sync, sync tasks, commit),
* `dsl_pool_mos_diduse_space`, `dsl_pool_willuse_space`, `dsl_pool_adjustedsize`,
* `dsl_pool_config_enter`, `dsl_pool_config_exit`, `dsl_pool_config_held` over a
  model of the lock of `rrwlock.c`.

`uint64_t` values are natural numbers, every operation that can leave the range
is followed by an explicit `% U64`; `int` and `int64_t` values are integers.
An `ASSERT` that fails makes the embedded function return `none`. Assertions
are compiled in only in debug builds: where a property turns on what happens
when an assertion does not hold, the embedded function takes the build as a
parameter `debug`, and with `debug = false` the assertion is not evaluated.
-/

namespace DslPool

/-! ## Machine arithmetic -/

/-- The modulus of `uint64_t` arithmetic. -/
def U64 : Nat := 2 ^ 64

/-- Conversion of a signed value to `uint64_t` (the usual arithmetic
conversion of C when a signed operand meets an unsigned 64-bit one). -/
def to_u64 (x : Int) : Nat := (x % (U64 : Int)).toNat

/-- The C function `atomic_add_64(&target, delta)`: the new value of `target`. -/
def atomic_add_64 (target delta : Nat) : Nat := (target + delta) % U64

/-! ## Constants that the file takes from headers -/

/-- Modelled from the spec: `TXG_SIZE` is defined in `sys/txg.h`, which is not
part of the sources; the spec fixes the number `W` of live transaction groups
at 4. -/
abbrev TXG_SIZE : Nat := 4

/-- Modelled from the spec: `TXG_MASK` is defined in `sys/txg.h` as
`TXG_SIZE - 1`, so that `txg & TXG_MASK` is the `txg mod W` of the spec. -/
abbrev TXG_MASK : Nat := TXG_SIZE - 1

/-- Modelled from the spec: the errno value `ERESTART` (the restart signal of
the spec) comes from `sys/errno.h`; only its being nonzero matters here. -/
def ERESTART : Int := -1

/-- Modelled from the spec: `MICROSEC` comes from `sys/time.h`; the comment in
`dsl_pool_sync` ("write_time is in nanosecs, so write_time/MICROSEC yields
millisecs") fixes it at one million. -/
def MICROSEC : Int := 1000000

/-! ## Data model -/

/-- The tunables and file-scope variables of `dsl_pool.c`. -/
structure zfs_globals where
  /-- The variable `int zfs_no_write_throttle`. -/
  zfs_no_write_throttle : Int
  /-- The variable `int zfs_write_limit_shift`. -/
  zfs_write_limit_shift : Int
  /-- The variable `int zfs_txg_synctime_ms`. -/
  zfs_txg_synctime_ms : Int
  /-- The variable `uint64_t zfs_write_limit_min`. -/
  zfs_write_limit_min : Nat
  /-- The variable `uint64_t zfs_write_limit_max`. -/
  zfs_write_limit_max : Nat
  /-- The variable `uint64_t zfs_write_limit_inflated`. -/
  zfs_write_limit_inflated : Nat
  /-- The variable `uint64_t zfs_write_limit_override`. -/
  zfs_write_limit_override : Nat
  /-- The variable `static pgcnt_t old_physmem`. -/
  old_physmem : Nat

/-- The values the variables are initialised with in the source. -/
def zfs_globals_init : zfs_globals where
  zfs_no_write_throttle := 0
  zfs_write_limit_shift := 3
  zfs_txg_synctime_ms := 1000
  zfs_write_limit_min := 32 <<< 20
  zfs_write_limit_max := 0
  zfs_write_limit_inflated := 0
  zfs_write_limit_override := 0
  old_physmem := 0

/-- The fields of `dsl_pool_t` that the ledger and the throttle use. -/
structure dsl_pool where
  /-- The variable `uint64_t dp_space_towrite[TXG_SIZE]`. -/
  dp_space_towrite : Fin TXG_SIZE → Nat
  /-- The variable `uint64_t dp_tempreserved[TXG_SIZE]`. -/
  dp_tempreserved : Fin TXG_SIZE → Nat
  /-- The variable `uint64_t dp_write_limit`. -/
  dp_write_limit : Nat
  /-- The variable `uint64_t dp_throughput`. -/
  dp_throughput : Nat

/-- The index `txg & TXG_MASK` of the ledger slot of a transaction group. -/
def txg_slot (txg : Nat) : Fin TXG_SIZE :=
  ⟨txg &&& TXG_MASK, Nat.lt_succ_of_le Nat.and_le_right⟩

/-- What a call of `dsl_pool_tempreserve_space` leaves behind: the value it
returns, the pool, and the call `txg_delay(dp, txg, ticks)` it made, if any,
as the pair `(txg, ticks)`. -/
structure reserve_result where
  /-- the returned `int` -/
  ret : Int
  /-- the pool after the call -/
  dp : dsl_pool
  /-- the arguments of the `txg_delay` call, when one was made -/
  delay : Option (Nat × Nat)

/-! ## The write throttle -/

/-- The local `write_limit` of `dsl_pool_tempreserve_space`:
`zfs_write_limit_override ? zfs_write_limit_override : dp->dp_write_limit`. -/
def active_limit (g : zfs_globals) (dp : dsl_pool) : Nat :=
  if g.zfs_write_limit_override ≠ 0 then g.zfs_write_limit_override
  else dp.dp_write_limit

/-- The expression
`dp->dp_space_towrite[txg & TXG_MASK] + dp->dp_tempreserved[txg & TXG_MASK] / 2`
in `uint64_t` arithmetic. -/
def reserved_estimate (dp : dsl_pool) (txg : Nat) : Nat :=
  (dp.dp_space_towrite (txg_slot txg) + dp.dp_tempreserved (txg_slot txg) / 2) % U64

/-- The pool after `atomic_add_64(&dp->dp_tempreserved[txg & TXG_MASK], delta)`. -/
def tempreserved_add (dp : dsl_pool) (txg delta : Nat) : dsl_pool :=
  { dp with
    dp_tempreserved :=
      Function.update dp.dp_tempreserved (txg_slot txg)
        (atomic_add_64 (dp.dp_tempreserved (txg_slot txg)) delta) }

/-- The C function `dsl_pool_tempreserve_space(dp, space, tx)`, with
`tx->tx_txg` passed as `tx_txg`. -/
def dsl_pool_tempreserve_space (g : zfs_globals) (dp : dsl_pool)
    (space : Nat) (tx_txg : Nat) : reserve_result :=
  let write_limit := active_limit g dp
  if g.zfs_no_write_throttle ≠ 0 then
    { ret := 0, dp := tempreserved_add dp tx_txg space, delay := none }
  else
    let reserved := if write_limit > 0 then reserved_estimate dp tx_txg else 0
    if write_limit > 0 ∧ reserved ≠ 0 ∧ reserved > write_limit then
      { ret := ERESTART, dp := dp, delay := none }
    else
      { ret := 0
        dp := tempreserved_add dp tx_txg space
        delay :=
          if reserved ≠ 0 ∧ reserved > write_limit - (write_limit >>> 3) then
            some (tx_txg, 1)
          else none }

/-- The C function `dsl_pool_tempreserve_clear(dp, space, tx)` with
`int64_t space`; `none` when its `ASSERT` fails. Both the comparison of the
assertion and the addition convert the signed operand to `uint64_t`. -/
def dsl_pool_tempreserve_clear (dp : dsl_pool) (space : Int) (tx_txg : Nat) :
    Option dsl_pool :=
  if dp.dp_tempreserved (txg_slot tx_txg) ≥ to_u64 space then
    some (tempreserved_add dp tx_txg (to_u64 (-space)))
  else none

/-- The loop of `dsl_pool_memory_pressure` that accumulates `space_inuse`. -/
def space_inuse (dp : dsl_pool) : Nat :=
  (List.finRange TXG_SIZE).foldl
    (fun acc i => ((acc + dp.dp_space_towrite i) % U64 + dp.dp_tempreserved i) % U64) 0

/-- The C function `dsl_pool_memory_pressure(dp)`. -/
def dsl_pool_memory_pressure (g : zfs_globals) (dp : dsl_pool) : dsl_pool :=
  if dp.dp_write_limit = g.zfs_write_limit_min then dp
  else
    { dp with
      dp_write_limit :=
        max g.zfs_write_limit_min (min dp.dp_write_limit (space_inuse dp / 4)) }

/-! ## The end of `dsl_pool_sync` -/

/-- What `dsl_pool_sync` takes from the rest of the kernel. -/
structure sync_env where
  /-- the global `physmem`, in pages -/
  physmem : Nat
  /-- the shift of the macro `ptob`, which turns pages into bytes -/
  PAGE_SHIFT : Nat
  /-- the collaborator `spa_get_asize(dp->dp_spa, lsize)` -/
  spa_get_asize : Nat → Nat
  /-- the part of `dsl_pool_sync` between the snapshot of `dp_space_towrite`
  and `dmu_tx_commit`: the pool it leaves, and the value of `write_time` it
  measured (an `hrtime_t`, after `dp_read_overhead` has been subtracted) -/
  sync_phases : dsl_pool → Nat → dsl_pool × Int

/-- The block of `dsl_pool_sync` guarded by
`physmem != old_physmem && zfs_write_limit_shift`. -/
def write_limit_ceiling (env : sync_env) (g : zfs_globals) : zfs_globals :=
  if env.physmem ≠ g.old_physmem ∧ g.zfs_write_limit_shift ≠ 0 then
    let limit_max :=
      ((env.physmem <<< env.PAGE_SHIFT) % U64) >>> g.zfs_write_limit_shift.toNat
    { g with
      old_physmem := env.physmem
      zfs_write_limit_max := limit_max
      zfs_write_limit_inflated :=
        max g.zfs_write_limit_min (env.spa_get_asize limit_max) }
  else g

/-- The body of the last `if` of `dsl_pool_sync`: the new throughput estimate
and the new write limit. -/
def throughput_update (g : zfs_globals) (dp : dsl_pool) (data_written : Nat)
    (write_time : Int) : dsl_pool :=
  let throughput := data_written / to_u64 (Int.tdiv write_time MICROSEC)
  let dp_throughput :=
    if dp.dp_throughput ≠ 0 then
      (throughput / 4 + (3 * dp.dp_throughput) % U64 / 4) % U64
    else throughput
  { dp with
    dp_throughput := dp_throughput
    dp_write_limit :=
      min g.zfs_write_limit_inflated
        (max g.zfs_write_limit_min
          ((dp_throughput * to_u64 g.zfs_txg_synctime_ms) % U64)) }

/-- The last `if` of `dsl_pool_sync`. -/
def write_limit_retune (g : zfs_globals) (dp : dsl_pool) (data_written : Nat)
    (write_time : Int) : dsl_pool :=
  if data_written > g.zfs_write_limit_min / 8 ∧ write_time > MICROSEC then
    throughput_update g dp data_written write_time
  else dp

/-- The statement `dp->dp_space_towrite[txg & TXG_MASK] = 0` of `dsl_pool_sync`. -/
def space_towrite_clear (dp : dsl_pool) (txg : Nat) : dsl_pool :=
  { dp with dp_space_towrite := Function.update dp.dp_space_towrite (txg_slot txg) 0 }

/-- The C function `dsl_pool_sync(dp, txg)`; the work done between the
snapshot of `dp_space_towrite` and `dmu_tx_commit` is `env.sync_phases`.
The result is `none` when one of the two assertions at its end fails. -/
def dsl_pool_sync (env : sync_env) (g : zfs_globals) (dp : dsl_pool) (txg : Nat) :
    Option (zfs_globals × dsl_pool) :=
  let data_written := dp.dp_space_towrite (txg_slot txg)
  let dp1 := (env.sync_phases dp txg).1
  let write_time := (env.sync_phases dp txg).2
  let dp2 := space_towrite_clear dp1 txg
  if dp2.dp_tempreserved (txg_slot txg) = 0 then
    let g1 := write_limit_ceiling env g
    if g1.zfs_write_limit_min > 0 then
      some (g1, write_limit_retune g1 dp2 data_written write_time)
    else none
  else none

/-! ## Example inputs and the total of the memory-pressure claim -/

/-- One mebibyte. -/
def MiB : Nat := 2 ^ 20

/-- A pool whose ledger is empty except for slot `txg & TXG_MASK`. -/
def pool_with (txg towrite tempreserved limit throughput : Nat) : dsl_pool where
  dp_space_towrite := Function.update (fun _ => 0) (txg_slot txg) towrite
  dp_tempreserved := Function.update (fun _ => 0) (txg_slot txg) tempreserved
  dp_write_limit := limit
  dp_throughput := throughput

/-- An environment for the examples: `physmem` pages of 4 KiB, an allocator
that inflates sizes six-fold, and synchronisation phases that leave the pool
as it is and measure `write_time` nanoseconds. -/
def env_example (physmem : Nat) (write_time : Int) : sync_env where
  physmem := physmem
  PAGE_SHIFT := 12
  spa_get_asize := fun lsize => (6 * lsize) % U64
  sync_phases := fun dp _ => (dp, write_time)

/-- The total of the memory-pressure claim, following its words: the exact
sum over all `W` slots of `space_to_write[i] + temp_reserved[i]`. The code
accumulates the same terms in the `uint64_t` variable `space_inuse`. -/
def ledger_total (dp : dsl_pool) : Nat :=
  ∑ i : Fin TXG_SIZE, (dp.dp_space_towrite i + dp.dp_tempreserved i)

/-! ## Declared intent, adjusted size and the checked throughput division -/

/-- Modelled from the spec: `SPA_MINDEVSIZE` comes from `sys/spa.h`; the
comment in `dsl_pool_adjustedsize` ("or at least 32MB") fixes its half at
32 MiB. -/
def SPA_MINDEVSIZE : Nat := 64 <<< 20

/-- The C function `dsl_pool_willuse_space(dp, space, tx)` with
`int64_t space`; the addition converts the signed operand to `uint64_t`. -/
def dsl_pool_willuse_space (dp : dsl_pool) (space : Int) (tx_txg : Nat) : dsl_pool :=
  if space > 0 then
    { dp with
      dp_space_towrite :=
        Function.update dp.dp_space_towrite (txg_slot tx_txg)
          ((dp.dp_space_towrite (txg_slot tx_txg) + to_u64 space) % U64) }
  else dp

/-- The local `resv` of `dsl_pool_adjustedsize`. -/
def adjustedsize_resv (space : Nat) (netfree : Bool) : Nat :=
  if netfree then (max (space >>> 6) (SPA_MINDEVSIZE >>> 1)) >>> 1
  else max (space >>> 6) (SPA_MINDEVSIZE >>> 1)

/-- The C function `dsl_pool_adjustedsize(dp, netfree)`, with the value of the
collaborator `spa_get_dspace(dp->dp_spa)` passed as `space`; the result is the
`uint64_t` difference `space - resv`. -/
def dsl_pool_adjustedsize (space : Nat) (netfree : Bool) : Nat :=
  (space + U64 - adjustedsize_resv space netfree) % U64

/-- Division of `uint64_t` values that reports a zero divisor. -/
def checked_div (a b : Nat) : Option Nat :=
  if b = 0 then none else some (a / b)

/-- The divisor `write_time / MICROSEC` of the throughput computation, as the
`uint64_t` it is converted to. -/
def throughput_divisor (write_time : Int) : Nat :=
  to_u64 (Int.tdiv write_time MICROSEC)

/-- The body of the last `if` of `dsl_pool_sync`, as `throughput_update`, with
the division `data_written / (write_time / MICROSEC)` checked. -/
def throughput_update_checked (g : zfs_globals) (dp : dsl_pool) (data_written : Nat)
    (write_time : Int) : Option dsl_pool :=
  match checked_div data_written (throughput_divisor write_time) with
  | none => none
  | some throughput =>
    let dp_throughput :=
      if dp.dp_throughput ≠ 0 then
        (throughput / 4 + (3 * dp.dp_throughput) % U64 / 4) % U64
      else throughput
    some { dp with
      dp_throughput := dp_throughput
      dp_write_limit :=
        min g.zfs_write_limit_inflated
          (max g.zfs_write_limit_min
            ((dp_throughput * to_u64 g.zfs_txg_synctime_ms) % U64)) }

/-- The last `if` of `dsl_pool_sync`, as `write_limit_retune`, with the
division checked: `none` stands for a division by zero. -/
def write_limit_retune_checked (g : zfs_globals) (dp : dsl_pool) (data_written : Nat)
    (write_time : Int) : Option dsl_pool :=
  if data_written > g.zfs_write_limit_min / 8 ∧ write_time > MICROSEC then
    throughput_update_checked g dp data_written write_time
  else some dp

/-! ## Sequences of reservations and releases, and the two builds -/

/-- One call of the transaction layer on the ledger of a txg. -/
inductive ledger_call where
  /-- the call `dsl_pool_tempreserve_space(dp, amount, tx)` -/
  | reserve (amount : Nat)
  /-- the call `dsl_pool_tempreserve_clear(dp, amount, tx)` -/
  | release (amount : Int)

/-- The C function `dsl_pool_tempreserve_clear(dp, space, tx)` in either build:
with `debug` its `ASSERT` is evaluated (`dsl_pool_tempreserve_clear`), without
it only the `atomic_add_64` of the negated amount remains. -/
def dsl_pool_tempreserve_clear_build (debug : Bool) (dp : dsl_pool) (space : Int)
    (tx_txg : Nat) : Option dsl_pool :=
  if debug = true then dsl_pool_tempreserve_clear dp space tx_txg
  else some (tempreserved_add dp tx_txg (to_u64 (-space)))

/-- The C function `dsl_pool_sync(dp, txg)` in either build: with `debug` its
two assertions are evaluated (`dsl_pool_sync`), without it the run goes through
whatever `dp_tempreserved` and `zfs_write_limit_min` hold. -/
def dsl_pool_sync_build (debug : Bool) (env : sync_env) (g : zfs_globals) (dp : dsl_pool)
    (txg : Nat) : Option (zfs_globals × dsl_pool) :=
  if debug = true then dsl_pool_sync env g dp txg
  else
    some (write_limit_ceiling env g,
      write_limit_retune (write_limit_ceiling env g)
        (space_towrite_clear (env.sync_phases dp txg).1 txg)
        (dp.dp_space_towrite (txg_slot txg)) (env.sync_phases dp txg).2)

/-- The pool after a sequence of calls for one txg; a reservation that is
refused leaves the pool as it is, and in a debug build a release whose
assertion fails ends the sequence with `none`. -/
def ledger_calls (debug : Bool) (g : zfs_globals) (txg : Nat) :
    List ledger_call → dsl_pool → Option dsl_pool
  | [], dp => some dp
  | ledger_call.reserve amount :: rest, dp =>
    ledger_calls debug g txg rest (dsl_pool_tempreserve_space g dp amount txg).dp
  | ledger_call.release amount :: rest, dp =>
    match dsl_pool_tempreserve_clear_build debug dp amount txg with
    | none => none
    | some dp1 => ledger_calls debug g txg rest dp1

/-- The balance of a sequence of calls, following the words of the accounting
invariant ("every reservation must be matched by a release"): the amounts of
the reservations that were accepted minus the amounts released. -/
def ledger_net (g : zfs_globals) (txg : Nat) : List ledger_call → dsl_pool → Int
  | [], _ => 0
  | ledger_call.reserve amount :: rest, dp =>
    (if (dsl_pool_tempreserve_space g dp amount txg).ret = 0 then (amount : Int) else 0) +
      ledger_net g txg rest (dsl_pool_tempreserve_space g dp amount txg).dp
  | ledger_call.release amount :: rest, dp =>
    -amount + ledger_net g txg rest (tempreserved_add dp txg (to_u64 (-amount)))

/-- A sequence of reserve / release calls on a txg followed by the run
`dsl_pool_sync(dp, txg)`, in either build; `none` when an assertion of a debug
build fails on the way. -/
def ledger_calls_then_sync (debug : Bool) (env : sync_env) (g : zfs_globals) (txg : Nat)
    (calls : List ledger_call) (dp : dsl_pool) : Option (zfs_globals × dsl_pool) :=
  match ledger_calls debug g txg calls dp with
  | none => none
  | some dp1 => dsl_pool_sync_build debug env g dp1 txg

/-! ## The synchronisation phases of `dsl_pool_sync` in detail

Steps 7 to 9 of the run (the fold of the meta-objset deltas, the sync of the
meta-objset, the sync tasks) and `dmu_tx_commit`, with the calls made to
collaborators recorded in a trace. The dataset and directory passes before
them are a collaborator, `sync_collab.data_phases`. The `int64_t` accumulators
and the `hrtime_t` times are integers kept in the signed 64-bit range by
`wrap_i64`, the two's-complement wrap-around of the compiled code. -/

/-- The value an `int64_t` holds after an operation whose exact result is `x`:
two's-complement wrap-around into `[-2^63, 2^63)`. -/
def wrap_i64 (x : Int) : Int := (x + 2 ^ 63) % 2 ^ 64 - 2 ^ 63

/-- A call that `dsl_pool_sync` makes to a collaborator from step 7 on. -/
inductive sync_event where
  /-- the call `dsl_dir_diduse_space(dp->dp_mos_dir, DD_USED_HEAD, used, compressed, uncompressed, tx)` -/
  | dsl_dir_diduse_space (used compressed uncompressed : Int)
  /-- the call `dmu_objset_sync(mos, zio, tx)`, with the update of the root block pointer -/
  | dmu_objset_sync
  /-- the call `dsl_sync_task_sync(dst, tx)` -/
  | dsl_sync_task_sync (dst : Nat)
  /-- the call `dmu_tx_commit(tx)` -/
  | dmu_tx_commit
  deriving DecidableEq

/-- The pool as the synchronisation phases see it: the ledger and the limit,
the meta-objset accumulators, the sync tasks queued per txg slot, the read
overhead, and whether the meta-objset has dirty or free dnodes for a slot. -/
structure sync_state where
  /-- the ledger and the write limit -/
  dp : dsl_pool
  /-- The field `int64_t dp_mos_used_delta`. -/
  dp_mos_used_delta : Int
  /-- The field `int64_t dp_mos_compressed_delta`. -/
  dp_mos_compressed_delta : Int
  /-- The field `int64_t dp_mos_uncompressed_delta`. -/
  dp_mos_uncompressed_delta : Int
  /-- The field `txg_list_t dp_sync_tasks`, head first. -/
  dp_sync_tasks : Fin TXG_SIZE → List Nat
  /-- The field `hrtime_t dp_read_overhead`. -/
  dp_read_overhead : Int
  /-- whether `os_dirty_dnodes` or `os_free_dnodes` of the meta-objset is
  non-empty for the slot -/
  mos_dirty_dnodes : Fin TXG_SIZE → Bool

/-- What the synchronisation phases take from the rest of the kernel. -/
structure sync_collab where
  /-- the value of `spa_sync_pass(dp->dp_spa)` -/
  spa_sync_pass : Nat
  /-- the dataset and directory passes: the pool they leave and the
  `write_time` measured so far -/
  data_phases : sync_state → Nat → sync_state × Int
  /-- the effect of `dsl_dir_diduse_space` on the pool -/
  dsl_dir_diduse_space : Int → Int → Int → sync_state → sync_state
  /-- the effect of `dmu_objset_sync` on the pool -/
  dmu_objset_sync : sync_state → sync_state
  /-- the time `gethrtime() - start` measured around the meta-objset sync -/
  mos_sync_time : Int
  /-- the effect of `dsl_sync_task_sync(dst, tx)` on the pool -/
  dsl_sync_task_sync : Nat → sync_state → sync_state

/-- The C function `dsl_pool_mos_diduse_space(dp, used, comp, uncomp)`: three
`int64_t` additions; in a debug build `none` when `ASSERT3U(comp, ==, uncomp)`
fails. -/
def dsl_pool_mos_diduse_space (debug : Bool) (s : sync_state) (used comp uncomp : Int) :
    Option sync_state :=
  if debug = true ∧ to_u64 comp ≠ to_u64 uncomp then none
  else
    some { s with
      dp_mos_used_delta := wrap_i64 (s.dp_mos_used_delta + used)
      dp_mos_compressed_delta := wrap_i64 (s.dp_mos_compressed_delta + comp)
      dp_mos_uncompressed_delta := wrap_i64 (s.dp_mos_uncompressed_delta + uncomp) }

/-- A sequence of `dsl_pool_mos_diduse_space(dp, used, comp, uncomp)` calls. -/
def mos_diduse_calls (debug : Bool) : List (Int × Int × Int) → sync_state → Option sync_state
  | [], s => some s
  | (used, comp, uncomp) :: rest, s =>
    match dsl_pool_mos_diduse_space debug s used comp uncomp with
    | none => none
    | some s1 => mos_diduse_calls debug rest s1

/-- Step 7 of `dsl_pool_sync`: the block guarded by
`dp_mos_used_delta != 0 || dp_mos_compressed_delta != 0 ||
dp_mos_uncompressed_delta != 0`. -/
def mos_space_fold (c : sync_collab) (s : sync_state) : sync_state × List sync_event :=
  if s.dp_mos_used_delta ≠ 0 ∨ s.dp_mos_compressed_delta ≠ 0 ∨
      s.dp_mos_uncompressed_delta ≠ 0 then
    ({ c.dsl_dir_diduse_space s.dp_mos_used_delta s.dp_mos_compressed_delta
          s.dp_mos_uncompressed_delta s with
        dp_mos_used_delta := 0
        dp_mos_compressed_delta := 0
        dp_mos_uncompressed_delta := 0 },
      [sync_event.dsl_dir_diduse_space s.dp_mos_used_delta s.dp_mos_compressed_delta
        s.dp_mos_uncompressed_delta])
  else (s, [])

/-- Step 8 of `dsl_pool_sync`: the meta-objset is synced when it has dirty or
free dnodes for the txg. -/
def mos_objset_sync (c : sync_collab) (txg : Nat) (s : sync_state) :
    sync_state × List sync_event :=
  if s.mos_dirty_dnodes (txg_slot txg) = true then
    (c.dmu_objset_sync s, [sync_event.dmu_objset_sync])
  else (s, [])

/-- How a phase ended. -/
inductive run_status where
  /-- the phase ran to its end -/
  | ok
  /-- an `ASSERT` failed -/
  | assertion_failed
  /-- the loop was cut off by the bound on its iterations -/
  | out_of_fuel
  deriving DecidableEq

/-- The outcome of a phase: how it ended, the pool at that point and the
collaborator calls made. -/
structure phase_result where
  /-- how the phase ended -/
  status : run_status
  /-- the pool at that point -/
  state : sync_state
  /-- the collaborator calls made, in order -/
  trace : List sync_event

/-- The loop `while (dst = txg_list_remove(&dp->dp_sync_tasks, txg))
dsl_sync_task_sync(dst, tx);` with at most `fuel` iterations. -/
def drain_sync_tasks (c : sync_collab) (txg : Nat) :
    Nat → sync_state → List sync_event → phase_result
  | 0, s, tr =>
    { status := if s.dp_sync_tasks (txg_slot txg) = [] then run_status.ok
        else run_status.out_of_fuel
      state := s
      trace := tr }
  | fuel + 1, s, tr =>
    match s.dp_sync_tasks (txg_slot txg) with
    | [] => { status := run_status.ok, state := s, trace := tr }
    | dst :: rest =>
      drain_sync_tasks c txg fuel
        (c.dsl_sync_task_sync dst
          { s with dp_sync_tasks := Function.update s.dp_sync_tasks (txg_slot txg) rest })
        (tr ++ [sync_event.dsl_sync_task_sync dst])

/-- Step 9 of `dsl_pool_sync`: the block guarded by
`!txg_list_empty(&dp->dp_sync_tasks, txg)`. The queue is drained whenever it is
not empty; the pass number is looked at only by the assertion
`spa_sync_pass(dp->dp_spa) == 1`, which stops a debug build before the loop. -/
def sync_tasks_step (debug : Bool) (c : sync_collab) (txg fuel : Nat) (s : sync_state) :
    phase_result :=
  if s.dp_sync_tasks (txg_slot txg) ≠ [] then
    if debug = true ∧ c.spa_sync_pass ≠ 1 then
      { status := run_status.assertion_failed, state := s, trace := [] }
    else drain_sync_tasks c txg fuel s []
  else { status := run_status.ok, state := s, trace := [] }

/-- The pool at the start of step 7, after `dp_read_overhead` has been cleared
and the dataset and directory passes have run. -/
def state_before_fold (c : sync_collab) (s : sync_state) (txg : Nat) : sync_state :=
  (c.data_phases { s with dp_read_overhead := 0 } txg).1

/-- The pool at the start of step 9, after the fold and the meta-objset sync. -/
def state_before_tasks (c : sync_collab) (s : sync_state) (txg : Nat) : sync_state :=
  (mos_objset_sync c txg (mos_space_fold c (state_before_fold c s txg)).1).1

/-- The part of `dsl_pool_sync` between the snapshot of `dp_space_towrite` and
the reset of the ledger slot: its outcome and the `write_time` it measured. -/
def dsl_pool_sync_phases (debug : Bool) (c : sync_collab) (fuel : Nat) (s : sync_state)
    (txg : Nat) : phase_result × Int :=
  let fold := mos_space_fold c (state_before_fold c s txg)
  let mos := mos_objset_sync c txg fold.1
  let write_time :=
    wrap_i64 (wrap_i64 ((c.data_phases { s with dp_read_overhead := 0 } txg).2 +
      c.mos_sync_time) - mos.1.dp_read_overhead)
  let tasks := sync_tasks_step debug c txg fuel mos.1
  ({ status := tasks.status
     state := tasks.state
     trace := fold.2 ++ mos.2 ++ tasks.trace ++
       (if tasks.status = run_status.ok then [sync_event.dmu_tx_commit] else []) },
    write_time)

/-- The environment of `dsl_pool_sync` whose synchronisation phases are the
detailed ones. -/
def sync_env_of (debug : Bool) (env : sync_env) (c : sync_collab) (fuel : Nat)
    (s : sync_state) : sync_env :=
  { env with
    sync_phases := fun dp txg =>
      ((dsl_pool_sync_phases debug c fuel { s with dp := dp } txg).1.state.dp,
        (dsl_pool_sync_phases debug c fuel { s with dp := dp } txg).2) }

/-- The whole run `dsl_pool_sync(dp, txg)` on the detailed pool, in either
build: the globals and the pool it leaves and the collaborator calls it made;
`none` when an assertion of a debug build fails or the bound on the iterations
is hit. -/
def dsl_pool_sync_run (debug : Bool) (env : sync_env) (c : sync_collab) (g : zfs_globals)
    (fuel : Nat) (s : sync_state) (txg : Nat) :
    Option (zfs_globals × sync_state × List sync_event) :=
  if (dsl_pool_sync_phases debug c fuel s txg).1.status = run_status.ok then
    match dsl_pool_sync_build debug (sync_env_of debug env c fuel s) g s.dp txg with
    | none => none
    | some (g1, dp1) =>
      some (g1, { (dsl_pool_sync_phases debug c fuel s txg).1.state with dp := dp1 },
        (dsl_pool_sync_phases debug c fuel s txg).1.trace)
  else none

/-- A pool for the examples: 40 MiB pending for txg 0, the given sync tasks
queued for txg 0, and a meta-objset that is dirty or not. -/
def sync_state_example (tasks : List Nat) (dirty : Bool) : sync_state where
  dp := pool_with 0 (40 * MiB) 0 (64 * MiB) 0
  dp_mos_used_delta := 0
  dp_mos_compressed_delta := 0
  dp_mos_uncompressed_delta := 0
  dp_sync_tasks := Function.update (fun _ => []) (txg_slot 0) tasks
  dp_read_overhead := 0
  mos_dirty_dnodes := fun _ => dirty

/-- Collaborators for the examples: the given sync pass, passes that take one
second each and leave the pool alone, a directory update that dirties the
meta-objset and a meta-objset sync that cleans it. -/
def collab_example (pass : Nat) : sync_collab where
  spa_sync_pass := pass
  data_phases := fun s _ => (s, 1000000000)
  dsl_dir_diduse_space := fun _ _ _ s => { s with mos_dirty_dnodes := fun _ => true }
  dmu_objset_sync := fun s => { s with mos_dirty_dnodes := fun _ => false }
  mos_sync_time := 1000000000
  dsl_sync_task_sync := fun _ s => s

/-! ## The configuration lock

`dsl_pool_config_enter`, `dsl_pool_config_exit` and `dsl_pool_config_held` are
in the source; the lock they call (`rrw_held`, `rrw_enter`, `rrw_exit` of
`rrwlock.c`) is not, and is modelled from the specification. A calling context
and a tag are numbers. A call that has to wait for a writer to leave cannot
return in the state it was made in: it is reported as blocked. -/

/-- Modelled from the spec: the state of the `rrwlock_t` behind
`dp_config_rwlock`, which `rrwlock.c` (not in the sources) implements: the
identities of the readers, each a calling context with the tag it entered with
(the lock is created with `rrw_init(&dp->dp_config_rwlock, B_TRUE)`, so every
reader is tracked), and the writer, if any, with the depth of its re-entrant
hold. -/
structure rrwlock where
  /-- the readers, the latest first -/
  rr_readers : List (Nat × Nat)
  /-- the writer and the depth of its hold -/
  rr_writer : Option (Nat × Nat)
  deriving DecidableEq

/-- Modelled from the spec: `rrw_held(rrl, RW_READER)` of `rrwlock.c`, which
tells whether the calling context holds the lock for read. -/
def rrw_held_reader (l : rrwlock) (ctx : Nat) : Bool :=
  l.rr_readers.any (fun r => decide (r.1 = ctx))

/-- Modelled from the spec: `rrw_held(rrl, RW_WRITER)` of `rrwlock.c`, which
tells whether the calling context is the writer. -/
def rrw_held_writer (l : rrwlock) (ctx : Nat) : Bool :=
  match l.rr_writer with
  | some (w, _) => decide (w = ctx)
  | none => false

/-- Modelled from the spec: `rrw_enter(rrl, RW_READER, tag)` of `rrwlock.c`,
which blocks until no writer holds the lock and then records the caller as a
reader; `none` stands for a caller that is blocked. -/
def rrw_enter_reader (l : rrwlock) (ctx tag : Nat) : Option rrwlock :=
  if l.rr_writer = none then some { l with rr_readers := (ctx, tag) :: l.rr_readers }
  else none

/-- Modelled from the spec: `rrw_exit(rrl, tag)` of `rrwlock.c`, which releases
the read hold that the caller took with the tag, or else one level of the
write hold of the caller; `none` when the caller holds nothing to release. -/
def rrw_exit (l : rrwlock) (ctx tag : Nat) : Option rrwlock :=
  if (ctx, tag) ∈ l.rr_readers then
    some { l with rr_readers := l.rr_readers.erase (ctx, tag) }
  else
    match l.rr_writer with
    | some (w, depth) =>
      if w = ctx then
        some { l with rr_writer := if depth ≤ 1 then none else some (w, depth - 1) }
      else none
    | none => none

/-- How a call of `dsl_pool_config_enter` ends. -/
inductive enter_result where
  /-- the assertion `!rrw_held(&dp->dp_config_rwlock, RW_READER)` failed -/
  | assertion_failed
  /-- the caller waits for a writer to leave -/
  | blocked
  /-- the caller holds the lock for read; the new state of the lock -/
  | acquired (l : rrwlock)
  deriving DecidableEq

/-- The C function `dsl_pool_config_enter(dp, tag)`, called from the context
`ctx`, on the lock `dp->dp_config_rwlock`. -/
def dsl_pool_config_enter (l : rrwlock) (ctx tag : Nat) : enter_result :=
  if rrw_held_reader l ctx = true then enter_result.assertion_failed
  else
    match rrw_enter_reader l ctx tag with
    | some l1 => enter_result.acquired l1
    | none => enter_result.blocked

/-- The C function `dsl_pool_config_exit(dp, tag)`, called from the context
`ctx`. -/
def dsl_pool_config_exit (l : rrwlock) (ctx tag : Nat) : Option rrwlock :=
  rrw_exit l ctx tag

/-- The C function `dsl_pool_config_held(dp)`, called from the context `ctx`:
the macro `RRW_LOCK_HELD` asks for a write hold or a read hold. -/
def dsl_pool_config_held (l : rrwlock) (ctx : Nat) : Bool :=
  rrw_held_writer l ctx || rrw_held_reader l ctx

/-! ## Basic facts about the embedding -/

theorem txg_slot_val (txg : Nat) : (txg_slot txg).val = txg % TXG_SIZE := by
  have h := Nat.and_pow_two_sub_one_eq_mod txg 2
  simpa [txg_slot, TXG_MASK, TXG_SIZE] using h

theorem ERESTART_ne_zero : ERESTART ≠ 0 := by decide

theorem reserved_estimate_le_exact (dp : dsl_pool) (txg : Nat) :
    reserved_estimate dp txg ≤
      dp.dp_space_towrite (txg_slot txg) + dp.dp_tempreserved (txg_slot txg) / 2 :=
  Nat.mod_le _ _

theorem to_u64_of_nat (n : Nat) (h : n < U64) : to_u64 (n : Int) = n := by
  unfold to_u64
  rw [Int.emod_eq_of_lt (Int.ofNat_nonneg n) (by exact_mod_cast h)]
  simp

theorem shiftRight_three (n : Nat) : n >>> 3 = n / 8 := by
  simp [Nat.shiftRight_eq_div_pow]

@[simp] theorem tempreserved_add_slot (dp : dsl_pool) (txg delta : Nat) :
    (tempreserved_add dp txg delta).dp_tempreserved (txg_slot txg) =
      (dp.dp_tempreserved (txg_slot txg) + delta) % U64 := by
  simp [tempreserved_add, atomic_add_64]

theorem tempreserved_add_other (dp : dsl_pool) (txg delta : Nat) (i : Fin TXG_SIZE)
    (h : i ≠ txg_slot txg) :
    (tempreserved_add dp txg delta).dp_tempreserved i = dp.dp_tempreserved i := by
  simp [tempreserved_add, Function.update_noteq h]

@[simp] theorem tempreserved_add_towrite (dp : dsl_pool) (txg delta : Nat) :
    (tempreserved_add dp txg delta).dp_space_towrite = dp.dp_space_towrite := rfl

@[simp] theorem tempreserved_add_limit (dp : dsl_pool) (txg delta : Nat) :
    (tempreserved_add dp txg delta).dp_write_limit = dp.dp_write_limit := rfl

@[simp] theorem tempreserved_add_throughput (dp : dsl_pool) (txg delta : Nat) :
    (tempreserved_add dp txg delta).dp_throughput = dp.dp_throughput := rfl

/-- With the throttle enabled the call fails exactly when the limit is nonzero
and the estimate exceeds it. -/
theorem tempreserve_space_ret (g : zfs_globals) (dp : dsl_pool) (space txg : Nat)
    (hthr : g.zfs_no_write_throttle = 0) :
    (dsl_pool_tempreserve_space g dp space txg).ret =
      if active_limit g dp ≠ 0 ∧ active_limit g dp < reserved_estimate dp txg then ERESTART
      else 0 := by
  unfold dsl_pool_tempreserve_space
  simp only [hthr, ne_eq, not_true_eq_false, if_false]
  by_cases hl : active_limit g dp = 0
  · simp [hl]
  · have hpos : 0 < active_limit g dp := Nat.pos_of_ne_zero hl
    by_cases hr : active_limit g dp < reserved_estimate dp txg
    · have hne : reserved_estimate dp txg ≠ 0 := by omega
      simp [hl, hpos, hr, hne]
    · simp [hl, hpos, hr]

/-- A successful call adds `space` to the slot of the group. -/
theorem tempreserve_space_dp_of_ok (g : zfs_globals) (dp : dsl_pool) (space txg : Nat)
    (hok : (dsl_pool_tempreserve_space g dp space txg).ret = 0) :
    (dsl_pool_tempreserve_space g dp space txg).dp = tempreserved_add dp txg space := by
  unfold dsl_pool_tempreserve_space at hok ⊢
  by_cases hthr : g.zfs_no_write_throttle = 0
  · simp only [hthr, ne_eq, not_true_eq_false, if_false] at hok ⊢
    split_ifs at hok ⊢ <;> first | rfl | exact absurd hok ERESTART_ne_zero
  · simp [hthr]

/-- With the throttle enabled, a successful call delays the caller one tick
exactly when the limit is nonzero and the estimate taken before the addition
exceeds seven eighths of it. -/
theorem tempreserve_space_delay (g : zfs_globals) (dp : dsl_pool) (space txg : Nat)
    (hthr : g.zfs_no_write_throttle = 0)
    (hok : (dsl_pool_tempreserve_space g dp space txg).ret = 0) :
    (dsl_pool_tempreserve_space g dp space txg).delay =
      if active_limit g dp ≠ 0 ∧
          active_limit g dp - active_limit g dp / 8 < reserved_estimate dp txg
      then some (txg, 1) else none := by
  have hret := tempreserve_space_ret g dp space txg hthr
  rw [hok] at hret
  unfold dsl_pool_tempreserve_space
  simp only [hthr, ne_eq, not_true_eq_false, if_false, shiftRight_three]
  by_cases hl : active_limit g dp = 0
  · simp [hl]
  · have hpos : 0 < active_limit g dp := Nat.pos_of_ne_zero hl
    have hle : ¬ active_limit g dp < reserved_estimate dp txg := by
      intro hlt
      rw [if_pos ⟨hl, hlt⟩] at hret
      exact ERESTART_ne_zero hret.symm
    by_cases hd : active_limit g dp - active_limit g dp / 8 < reserved_estimate dp txg
    · have hne : reserved_estimate dp txg ≠ 0 := by omega
      simp [hl, hpos, hle, hd, hne]
    · simp [hl, hpos, hle, hd]

/-! ## Reservation -/

/-- C1 as stated fails: with the throttle enabled, no override and an adaptive
limit of zero, a slot whose estimate (1) exceeds the active limit (0) still
accepts a reservation: the call returns 0 and adds the amount to
`dp_tempreserved`, because the comparison is guarded by `write_limit > 0`. -/
theorem reserve_restart_counterexample :
    zfs_globals_init.zfs_no_write_throttle = 0 ∧
    active_limit zfs_globals_init (pool_with 0 1 0 0 0) = 0 ∧
    reserved_estimate (pool_with 0 1 0 0 0) 0 = 1 ∧
    (dsl_pool_tempreserve_space zfs_globals_init (pool_with 0 1 0 0 0) 5 0).ret = 0 ∧
    (dsl_pool_tempreserve_space zfs_globals_init (pool_with 0 1 0 0 0) 5 0).ret ≠ ERESTART ∧
    (pool_with 0 1 0 0 0).dp_tempreserved (txg_slot 0) = 0 ∧
    (dsl_pool_tempreserve_space zfs_globals_init
      (pool_with 0 1 0 0 0) 5 0).dp.dp_tempreserved (txg_slot 0) = 5 := by
  decide

/-- C1, amended (throttle monotonicity): with the throttle enabled, whenever the
active limit is nonzero and the estimate
`dp_space_towrite[slot] + dp_tempreserved[slot] / 2` (as computed in 64-bit
arithmetic, `slot = txg mod W`) exceeds it, `dsl_pool_tempreserve_space` returns
`ERESTART`, which is not the success value, leaves the pool (so
`dp_tempreserved` in every slot) unchanged and does not delay the caller. -/
theorem reserve_restart (g : zfs_globals) (dp : dsl_pool) (space txg : Nat)
    (hthr : g.zfs_no_write_throttle = 0) (hlimit : active_limit g dp ≠ 0)
    (hover : active_limit g dp < reserved_estimate dp txg) :
    (dsl_pool_tempreserve_space g dp space txg).ret = ERESTART ∧
    (dsl_pool_tempreserve_space g dp space txg).ret ≠ 0 ∧
    (dsl_pool_tempreserve_space g dp space txg).dp = dp ∧
    (∀ i, (dsl_pool_tempreserve_space g dp space txg).dp.dp_tempreserved i =
      dp.dp_tempreserved i) ∧
    (dsl_pool_tempreserve_space g dp space txg).delay = none ∧
    (txg_slot txg).val = txg % TXG_SIZE := by
  have hpos : 0 < active_limit g dp := Nat.pos_of_ne_zero hlimit
  have hne : reserved_estimate dp txg ≠ 0 := by omega
  have hret : (dsl_pool_tempreserve_space g dp space txg).ret = ERESTART := by
    rw [tempreserve_space_ret g dp space txg hthr, if_pos ⟨hlimit, hover⟩]
  have hdp : (dsl_pool_tempreserve_space g dp space txg).dp = dp := by
    unfold dsl_pool_tempreserve_space
    simp [hthr, hpos, hover, hne]
  have hdelay : (dsl_pool_tempreserve_space g dp space txg).delay = none := by
    unfold dsl_pool_tempreserve_space
    simp [hthr, hpos, hover, hne]
  refine ⟨hret, ?_, hdp, ?_, hdelay, txg_slot_val txg⟩
  · rw [hret]; exact ERESTART_ne_zero
  · intro i; rw [hdp]

/-- Instance of `reserve_restart`: 70 MiB pending against a limit of 64 MiB. -/
theorem reserve_restart_witness :
    (zfs_globals_init.zfs_no_write_throttle = 0 ∧
      active_limit zfs_globals_init (pool_with 0 (70 * MiB) 0 (64 * MiB) 0) ≠ 0 ∧
      active_limit zfs_globals_init (pool_with 0 (70 * MiB) 0 (64 * MiB) 0) <
        reserved_estimate (pool_with 0 (70 * MiB) 0 (64 * MiB) 0) 0) ∧
    (dsl_pool_tempreserve_space zfs_globals_init
      (pool_with 0 (70 * MiB) 0 (64 * MiB) 0) MiB 0).ret = ERESTART :=
  ⟨by decide,
    (reserve_restart zfs_globals_init (pool_with 0 (70 * MiB) 0 (64 * MiB) 0) MiB 0
      (by decide) (by decide) (by decide)).1⟩

/-- C2 (reserve success): with the throttle enabled, whenever the estimate
`dp_space_towrite[slot] + dp_tempreserved[slot] / 2` does not exceed the active
limit, `dsl_pool_tempreserve_space` returns 0, `dp_tempreserved[txg mod W]`
becomes its old value plus the amount modulo `2^64`, and `dp_space_towrite` in
every slot, `dp_tempreserved` in every other slot and the write limit keep their
values. The hypothesis bounds the 64-bit value of the estimate, which is never
larger than the exact sum (`reserved_estimate_le_exact`). -/
theorem reserve_success (g : zfs_globals) (dp : dsl_pool) (space txg : Nat)
    (hthr : g.zfs_no_write_throttle = 0)
    (hfit : reserved_estimate dp txg ≤ active_limit g dp) :
    (dsl_pool_tempreserve_space g dp space txg).ret = 0 ∧
    (dsl_pool_tempreserve_space g dp space txg).dp.dp_tempreserved (txg_slot txg) =
      (dp.dp_tempreserved (txg_slot txg) + space) % 2 ^ 64 ∧
    (txg_slot txg).val = txg % TXG_SIZE ∧
    (∀ i, i ≠ txg_slot txg →
      (dsl_pool_tempreserve_space g dp space txg).dp.dp_tempreserved i =
        dp.dp_tempreserved i) ∧
    (∀ i, (dsl_pool_tempreserve_space g dp space txg).dp.dp_space_towrite i =
      dp.dp_space_towrite i) ∧
    (dsl_pool_tempreserve_space g dp space txg).dp.dp_write_limit = dp.dp_write_limit := by
  have hret : (dsl_pool_tempreserve_space g dp space txg).ret = 0 := by
    rw [tempreserve_space_ret g dp space txg hthr, if_neg]
    intro h
    omega
  have hdp := tempreserve_space_dp_of_ok g dp space txg hret
  refine ⟨hret, ?_, txg_slot_val txg, ?_, ?_, ?_⟩
  · rw [hdp, tempreserved_add_slot]; rfl
  · intro i hi
    rw [hdp]
    exact tempreserved_add_other dp txg space i hi
  · intro i; rw [hdp]; rfl
  · rw [hdp]; rfl

/-- Instance of `reserve_success`: the scenario of the specification, 40 MiB
pending and 8 MiB reserved against a limit of 64 MiB, reserving 20 MiB. -/
theorem reserve_success_witness :
    (zfs_globals_init.zfs_no_write_throttle = 0 ∧
      reserved_estimate (pool_with 0 (40 * MiB) (8 * MiB) (64 * MiB) 0) 0 ≤
        active_limit zfs_globals_init (pool_with 0 (40 * MiB) (8 * MiB) (64 * MiB) 0)) ∧
    (dsl_pool_tempreserve_space zfs_globals_init
      (pool_with 0 (40 * MiB) (8 * MiB) (64 * MiB) 0) (20 * MiB) 0).ret = 0 :=
  ⟨by decide,
    (reserve_success zfs_globals_init (pool_with 0 (40 * MiB) (8 * MiB) (64 * MiB) 0)
      (20 * MiB) 0 (by decide) (by decide)).1⟩

/-- C3 as stated fails, twice. In the scenario of the specification (floor
32 MiB, no override, 40 MiB pending, 8 MiB reserved, limit 64 MiB, reserving
20 MiB) the call succeeds and the caller is not delayed: the estimate that is
compared with seven eighths of the limit (56 MiB) is the one taken before the
addition, 44 MiB. And reserving 40 MiB in the same state makes the estimate
taken after the addition 64 MiB, above 56 MiB, still without any delay. -/
theorem soft_brake_counterexample :
    zfs_globals_init.zfs_no_write_throttle = 0 ∧
    zfs_globals_init.zfs_write_limit_min = 32 * MiB ∧
    active_limit zfs_globals_init (pool_with 0 (40 * MiB) (8 * MiB) (64 * MiB) 0) = 64 * MiB ∧
    reserved_estimate (pool_with 0 (40 * MiB) (8 * MiB) (64 * MiB) 0) 0 = 44 * MiB ∧
    (dsl_pool_tempreserve_space zfs_globals_init
      (pool_with 0 (40 * MiB) (8 * MiB) (64 * MiB) 0) (20 * MiB) 0).ret = 0 ∧
    (dsl_pool_tempreserve_space zfs_globals_init
      (pool_with 0 (40 * MiB) (8 * MiB) (64 * MiB) 0) (20 * MiB) 0).delay = none ∧
    (dsl_pool_tempreserve_space zfs_globals_init
      (pool_with 0 (40 * MiB) (8 * MiB) (64 * MiB) 0) (40 * MiB) 0).ret = 0 ∧
    reserved_estimate (dsl_pool_tempreserve_space zfs_globals_init
      (pool_with 0 (40 * MiB) (8 * MiB) (64 * MiB) 0) (40 * MiB) 0).dp 0 = 64 * MiB ∧
    64 * MiB - 64 * MiB / 8 < reserved_estimate (dsl_pool_tempreserve_space zfs_globals_init
      (pool_with 0 (40 * MiB) (8 * MiB) (64 * MiB) 0) (40 * MiB) 0).dp 0 ∧
    (dsl_pool_tempreserve_space zfs_globals_init
      (pool_with 0 (40 * MiB) (8 * MiB) (64 * MiB) 0) (40 * MiB) 0).delay = none := by
  decide

/-- C3, amended (soft brake): for every successful `dsl_pool_tempreserve_space`
with the throttle enabled, the caller is delayed by exactly one tick
(`txg_delay(dp, txg, 1)`) if the active limit is nonzero and the estimate
computed before the amount is added, the one that was compared with the limit,
exceeds `limit - limit / 8`; otherwise the caller is not delayed. -/
theorem soft_brake (g : zfs_globals) (dp : dsl_pool) (space txg : Nat)
    (hthr : g.zfs_no_write_throttle = 0)
    (hok : (dsl_pool_tempreserve_space g dp space txg).ret = 0) :
    ((active_limit g dp ≠ 0 ∧
        active_limit g dp - active_limit g dp / 8 < reserved_estimate dp txg) →
      (dsl_pool_tempreserve_space g dp space txg).delay = some (txg, 1)) ∧
    (¬ (active_limit g dp ≠ 0 ∧
        active_limit g dp - active_limit g dp / 8 < reserved_estimate dp txg) →
      (dsl_pool_tempreserve_space g dp space txg).delay = none) := by
  have hd := tempreserve_space_delay g dp space txg hthr hok
  constructor
  · intro h; rw [hd, if_pos h]
  · intro h; rw [hd, if_neg h]

/-- Instance of `soft_brake`: 60 MiB pending against a limit of 64 MiB; the
reservation succeeds and the caller is delayed one tick. -/
theorem soft_brake_witness :
    (zfs_globals_init.zfs_no_write_throttle = 0 ∧
      (dsl_pool_tempreserve_space zfs_globals_init
        (pool_with 0 (60 * MiB) 0 (64 * MiB) 0) MiB 0).ret = 0) ∧
    (dsl_pool_tempreserve_space zfs_globals_init
      (pool_with 0 (60 * MiB) 0 (64 * MiB) 0) MiB 0).delay = some (0, 1) :=
  ⟨by decide,
    (soft_brake zfs_globals_init (pool_with 0 (60 * MiB) 0 (64 * MiB) 0) MiB 0
      (by decide) (by decide)).1 (by decide)⟩

/-- C4 (throttle disabled): when `zfs_no_write_throttle` is nonzero,
`dsl_pool_tempreserve_space` returns 0 and never `ERESTART`, adds the amount to
`dp_tempreserved[txg mod W]` (modulo `2^64`), touches nothing else and does not
delay the caller, whatever the ledger, the adaptive limit and the override. -/
theorem throttle_disabled (g : zfs_globals) (dp : dsl_pool) (space txg : Nat)
    (hoff : g.zfs_no_write_throttle ≠ 0) :
    (dsl_pool_tempreserve_space g dp space txg).ret = 0 ∧
    (dsl_pool_tempreserve_space g dp space txg).ret ≠ ERESTART ∧
    (dsl_pool_tempreserve_space g dp space txg).delay = none ∧
    (dsl_pool_tempreserve_space g dp space txg).dp.dp_tempreserved (txg_slot txg) =
      (dp.dp_tempreserved (txg_slot txg) + space) % 2 ^ 64 ∧
    (txg_slot txg).val = txg % TXG_SIZE ∧
    (∀ i, i ≠ txg_slot txg →
      (dsl_pool_tempreserve_space g dp space txg).dp.dp_tempreserved i =
        dp.dp_tempreserved i) ∧
    (∀ i, (dsl_pool_tempreserve_space g dp space txg).dp.dp_space_towrite i =
      dp.dp_space_towrite i) ∧
    (dsl_pool_tempreserve_space g dp space txg).dp.dp_write_limit = dp.dp_write_limit := by
  have hr : dsl_pool_tempreserve_space g dp space txg =
      { ret := 0, dp := tempreserved_add dp txg space, delay := none } := by
    unfold dsl_pool_tempreserve_space
    simp [hoff]
  rw [hr]
  refine ⟨rfl, ?_, rfl, ?_, txg_slot_val txg, ?_, ?_, rfl⟩
  · exact fun h => ERESTART_ne_zero h.symm
  · simp only [tempreserved_add_slot]; rfl
  · intro i hi
    exact tempreserved_add_other dp txg space i hi
  · intro i; rfl

/-- Instance of `throttle_disabled`: the flag is 1, the slot is far above its
limit, and the reservation is accepted all the same. -/
theorem throttle_disabled_witness :
    ({ zfs_globals_init with zfs_no_write_throttle := 1 } : zfs_globals).zfs_no_write_throttle ≠ 0 ∧
    (dsl_pool_tempreserve_space { zfs_globals_init with zfs_no_write_throttle := 1 }
      (pool_with 0 (70 * MiB) 0 (64 * MiB) 0) MiB 0).ret = 0 :=
  ⟨by decide,
    (throttle_disabled { zfs_globals_init with zfs_no_write_throttle := 1 }
      (pool_with 0 (70 * MiB) 0 (64 * MiB) 0) MiB 0 (by decide)).1⟩

/-- C5 (override precedence): when `zfs_write_limit_override` is nonzero, two
runs of `dsl_pool_tempreserve_space` that differ only in `dp_write_limit` return
the same value, leave the same `dp_tempreserved` and agree on the delay, and
this outcome is the one obtained with override 0 and `dp_write_limit` set to
the override value. -/
theorem override_precedence (g : zfs_globals) (dp : dsl_pool) (space txg : Nat)
    (limit1 limit2 : Nat) (hov : g.zfs_write_limit_override ≠ 0) :
    ((dsl_pool_tempreserve_space g { dp with dp_write_limit := limit1 } space txg).ret =
        (dsl_pool_tempreserve_space g { dp with dp_write_limit := limit2 } space txg).ret ∧
      (dsl_pool_tempreserve_space g { dp with dp_write_limit := limit1 } space txg).dp.dp_tempreserved =
        (dsl_pool_tempreserve_space g { dp with dp_write_limit := limit2 } space txg).dp.dp_tempreserved ∧
      (dsl_pool_tempreserve_space g { dp with dp_write_limit := limit1 } space txg).delay =
        (dsl_pool_tempreserve_space g { dp with dp_write_limit := limit2 } space txg).delay) ∧
    ((dsl_pool_tempreserve_space g { dp with dp_write_limit := limit1 } space txg).ret =
        (dsl_pool_tempreserve_space { g with zfs_write_limit_override := 0 }
          { dp with dp_write_limit := g.zfs_write_limit_override } space txg).ret ∧
      (dsl_pool_tempreserve_space g { dp with dp_write_limit := limit1 } space txg).dp.dp_tempreserved =
        (dsl_pool_tempreserve_space { g with zfs_write_limit_override := 0 }
          { dp with dp_write_limit := g.zfs_write_limit_override } space txg).dp.dp_tempreserved ∧
      (dsl_pool_tempreserve_space g { dp with dp_write_limit := limit1 } space txg).delay =
        (dsl_pool_tempreserve_space { g with zfs_write_limit_override := 0 }
          { dp with dp_write_limit := g.zfs_write_limit_override } space txg).delay) := by
  have key : ∀ limit : Nat,
      let r := dsl_pool_tempreserve_space g { dp with dp_write_limit := limit } space txg
      let r0 := dsl_pool_tempreserve_space { g with zfs_write_limit_override := 0 }
          { dp with dp_write_limit := g.zfs_write_limit_override } space txg
      r.ret = r0.ret ∧ r.dp.dp_tempreserved = r0.dp.dp_tempreserved ∧ r.delay = r0.delay := by
    intro limit
    simp only [dsl_pool_tempreserve_space, active_limit, reserved_estimate, tempreserved_add,
      hov, ne_eq, not_false_eq_true, not_true_eq_false, if_true, if_false]
    split_ifs <;> simp
  have h1 := key limit1
  have h2 := key limit2
  simp only at h1 h2
  refine ⟨⟨?_, ?_, ?_⟩, h1⟩
  · rw [h1.1, h2.1]
  · rw [h1.2.1, h2.2.1]
  · rw [h1.2.2, h2.2.2]

/-- Instance of `override_precedence`: an override of 64 MiB. -/
theorem override_precedence_witness :
    ({ zfs_globals_init with zfs_write_limit_override := 64 * MiB } :
      zfs_globals).zfs_write_limit_override ≠ 0 ∧
    (dsl_pool_tempreserve_space { zfs_globals_init with zfs_write_limit_override := 64 * MiB }
        { pool_with 0 (70 * MiB) 0 0 0 with dp_write_limit := 32 * MiB } MiB 0).ret =
      (dsl_pool_tempreserve_space { zfs_globals_init with zfs_write_limit_override := 64 * MiB }
        { pool_with 0 (70 * MiB) 0 0 0 with dp_write_limit := 128 * MiB } MiB 0).ret :=
  ⟨by decide,
    (override_precedence { zfs_globals_init with zfs_write_limit_override := 64 * MiB }
      (pool_with 0 (70 * MiB) 0 0 0) MiB 0 (32 * MiB) (128 * MiB) (by decide)).1.1⟩

/-! ## Release -/

/-- Subtracting through `atomic_add_64` with the negated amount. -/
theorem atomic_add_64_neg (t : Nat) (space : Int) (ht : t < U64) (h0 : 0 ≤ space)
    (hle : space ≤ (t : Int)) :
    ((atomic_add_64 t (to_u64 (-space)) : Nat) : Int) = (t : Int) - space := by
  obtain ⟨a, rfl⟩ := Int.eq_ofNat_of_zero_le h0
  have ha : a ≤ t := by exact_mod_cast hle
  unfold atomic_add_64 to_u64 U64 at *
  by_cases hz : a = 0
  · subst hz
    simp
    omega
  · have hneg : (-(a : Int)) % ((2 ^ 64 : Nat) : Int) = ((2 ^ 64 - a : Nat) : Int) := by
      have h1 : (-(a : Int)) % ((2 ^ 64 : Nat) : Int) =
          (-(a : Int) + ((2 ^ 64 : Nat) : Int)) % ((2 ^ 64 : Nat) : Int) := by
        simp
      rw [h1, Int.emod_eq_of_lt] <;> push_cast <;> omega
    rw [hneg, Int.toNat_ofNat]
    omega

/-- C6 (release): for every pool whose counter `dp_tempreserved[txg mod W]` is
a 64-bit value and every amount with `0 <= amount <= dp_tempreserved[txg mod W]`,
the assertion of `dsl_pool_tempreserve_clear` holds and the call sets the
counter to its old value minus the amount (a non-negative number, no
wrap-around), changing no other slot, no `dp_space_towrite` and neither the
limit nor the throughput estimate. Consequently, if the pool came out of a
successful `dsl_pool_tempreserve_space` of the same amount for the same txg, the
release gives back the pool as it was before that reservation. -/
theorem release_restores (dp : dsl_pool) (space : Int) (txg : Nat)
    (hwf : dp.dp_tempreserved (txg_slot txg) < 2 ^ 64) (h0 : 0 ≤ space)
    (hle : space ≤ (dp.dp_tempreserved (txg_slot txg) : Int)) :
    ∃ dp', dsl_pool_tempreserve_clear dp space txg = some dp' ∧
      (dp'.dp_tempreserved (txg_slot txg) : Int) =
        (dp.dp_tempreserved (txg_slot txg) : Int) - space ∧
      (txg_slot txg).val = txg % TXG_SIZE ∧
      (∀ i, i ≠ txg_slot txg → dp'.dp_tempreserved i = dp.dp_tempreserved i) ∧
      (∀ i, dp'.dp_space_towrite i = dp.dp_space_towrite i) ∧
      dp'.dp_write_limit = dp.dp_write_limit ∧
      dp'.dp_throughput = dp.dp_throughput ∧
      (∀ (g : zfs_globals) (dp0 : dsl_pool),
        dp0.dp_tempreserved (txg_slot txg) < 2 ^ 64 →
        (dsl_pool_tempreserve_space g dp0 space.toNat txg).ret = 0 →
        (dsl_pool_tempreserve_space g dp0 space.toNat txg).dp = dp →
        dp' = dp0) := by
  have hwf' : dp.dp_tempreserved (txg_slot txg) < U64 := hwf
  have hsub := atomic_add_64_neg (dp.dp_tempreserved (txg_slot txg)) space hwf' h0 hle
  obtain ⟨a, rfl⟩ := Int.eq_ofNat_of_zero_le h0
  have ha : a ≤ dp.dp_tempreserved (txg_slot txg) := by exact_mod_cast hle
  have hau : to_u64 (a : Int) = a := to_u64_of_nat a (lt_of_le_of_lt ha hwf')
  refine ⟨tempreserved_add dp txg (to_u64 (-(a : Int))), ?_, ?_, txg_slot_val txg, ?_, ?_,
    rfl, rfl, ?_⟩
  · unfold dsl_pool_tempreserve_clear
    rw [hau, if_pos ha]
  · simpa [tempreserved_add] using hsub
  · intro i hi
    exact tempreserved_add_other dp txg _ i hi
  · intro i; rfl
  · intro g dp0 hwf0 hok hdp
    have hdp0 := tempreserve_space_dp_of_ok g dp0 (Int.toNat (a : Int)) txg hok
    rw [hdp] at hdp0
    simp only [Int.toNat_ofNat] at hdp0
    have hslot : dp.dp_tempreserved (txg_slot txg) =
        (dp0.dp_tempreserved (txg_slot txg) + a) % U64 := by
      rw [hdp0, tempreserved_add_slot]
    have hback : atomic_add_64 (dp.dp_tempreserved (txg_slot txg)) (to_u64 (-(a : Int))) =
        dp0.dp_tempreserved (txg_slot txg) := by
      have h1 : ((atomic_add_64 (dp.dp_tempreserved (txg_slot txg)) (to_u64 (-(a : Int))) : Nat) : Int)
          = (dp0.dp_tempreserved (txg_slot txg) : Int) := by
        rw [hsub]
        have hwf0' : dp0.dp_tempreserved (txg_slot txg) < 18446744073709551616 := by
          simpa using hwf0
        unfold U64 at hslot
        omega
      exact_mod_cast h1
    have htemp : (tempreserved_add dp txg (to_u64 (-(a : Int)))).dp_tempreserved =
        dp0.dp_tempreserved := by
      funext i
      by_cases hi : i = txg_slot txg
      · subst hi
        simp only [tempreserved_add, Function.update_same]
        exact hback
      · rw [tempreserved_add_other dp txg _ i hi, hdp0, tempreserved_add_other dp0 txg _ i hi]
    cases dp0 with
    | mk tw0 tr0 wl0 th0 =>
      have e1 : dp.dp_space_towrite = tw0 := by rw [hdp0]; rfl
      have e2 : dp.dp_write_limit = wl0 := by rw [hdp0]; rfl
      have e3 : dp.dp_throughput = th0 := by rw [hdp0]; rfl
      simp only [tempreserved_add, dsl_pool.mk.injEq] at htemp ⊢
      exact ⟨e1, htemp, e2, e3⟩

/-- Instance of `release_restores`: the pool left by the reservation of 20 MiB
in the scenario of the specification; releasing the 20 MiB gives the pool of
the scenario back. -/
theorem release_restores_witness :
    ((dsl_pool_tempreserve_space zfs_globals_init
        (pool_with 0 (40 * MiB) (8 * MiB) (64 * MiB) 0) (20 * MiB) 0).dp.dp_tempreserved
        (txg_slot 0) < 2 ^ 64 ∧
      (0 : Int) ≤ 20971520 ∧
      (20971520 : Int) ≤ ((dsl_pool_tempreserve_space zfs_globals_init
        (pool_with 0 (40 * MiB) (8 * MiB) (64 * MiB) 0) (20 * MiB) 0).dp.dp_tempreserved
        (txg_slot 0) : Int)) ∧
    dsl_pool_tempreserve_clear (dsl_pool_tempreserve_space zfs_globals_init
        (pool_with 0 (40 * MiB) (8 * MiB) (64 * MiB) 0) (20 * MiB) 0).dp 20971520 0 =
      some (pool_with 0 (40 * MiB) (8 * MiB) (64 * MiB) 0) := by
  refine ⟨⟨by decide, by decide, by decide⟩, ?_⟩
  obtain ⟨dp', hclear, -, -, -, -, -, -, hround⟩ :=
    release_restores (dsl_pool_tempreserve_space zfs_globals_init
      (pool_with 0 (40 * MiB) (8 * MiB) (64 * MiB) 0) (20 * MiB) 0).dp 20971520 0
      (by decide) (by decide) (by decide)
  rw [hclear, hround zfs_globals_init (pool_with 0 (40 * MiB) (8 * MiB) (64 * MiB) 0)
    (by decide) (by decide) rfl]

/-! ## Memory pressure -/

theorem finRange_txg : List.finRange TXG_SIZE = [0, 1, 2, 3] := rfl

/-- The accumulator of the loop holds the exact total modulo `2^64`. -/
theorem space_inuse_eq (dp : dsl_pool) : space_inuse dp = ledger_total dp % U64 := by
  unfold space_inuse ledger_total
  rw [finRange_txg, Fin.sum_univ_four]
  simp only [List.foldl_cons, List.foldl_nil, U64]
  omega

/-- C10 as stated fails when the exact total does not fit in 64 bits: with
`2^63` bytes pending and `2^63` bytes reserved in slot 0 the exact total is
`2^64`, a quarter of it is `2^62`, and the formula of the claim keeps the old
limit `2^40`; the accumulator `space_inuse` wraps to 0 and the code lowers the
limit to the floor, 32 MiB. -/
theorem memory_pressure_counterexample :
    ledger_total (pool_with 0 (2 ^ 63) (2 ^ 63) (2 ^ 40) 0) = 2 ^ 64 ∧
    max zfs_globals_init.zfs_write_limit_min
      (min (pool_with 0 (2 ^ 63) (2 ^ 63) (2 ^ 40) 0).dp_write_limit
        (ledger_total (pool_with 0 (2 ^ 63) (2 ^ 63) (2 ^ 40) 0) / 4)) = 2 ^ 40 ∧
    space_inuse (pool_with 0 (2 ^ 63) (2 ^ 63) (2 ^ 40) 0) = 0 ∧
    (dsl_pool_memory_pressure zfs_globals_init
      (pool_with 0 (2 ^ 63) (2 ^ 63) (2 ^ 40) 0)).dp_write_limit = 32 * MiB ∧
    32 * MiB ≠ 2 ^ 40 := by
  decide

/-- C10, amended (memory pressure): for every pool state, after
`dsl_pool_memory_pressure` the limit is
`max(floor, min(old_limit, total64 / 4))`, where `total64` is the sum over all
`W` slots of `dp_space_towrite[i] + dp_tempreserved[i]` taken modulo `2^64`
(the `uint64_t` accumulator `space_inuse`) and `floor` is
`zfs_write_limit_min`. Hence `floor <= dp_write_limit <= max(floor, total / 4)`
for the exact total as well, the formula holds with the exact total whenever
that is below `2^64`, and the ledger counters and the throughput estimate are
unchanged. -/
theorem memory_pressure_limit (g : zfs_globals) (dp : dsl_pool) :
    (dsl_pool_memory_pressure g dp).dp_write_limit =
      max g.zfs_write_limit_min (min dp.dp_write_limit (ledger_total dp % 2 ^ 64 / 4)) ∧
    g.zfs_write_limit_min ≤ (dsl_pool_memory_pressure g dp).dp_write_limit ∧
    (dsl_pool_memory_pressure g dp).dp_write_limit ≤
      max g.zfs_write_limit_min (ledger_total dp % 2 ^ 64 / 4) ∧
    (dsl_pool_memory_pressure g dp).dp_write_limit ≤
      max g.zfs_write_limit_min (ledger_total dp / 4) ∧
    (ledger_total dp < 2 ^ 64 →
      (dsl_pool_memory_pressure g dp).dp_write_limit =
        max g.zfs_write_limit_min (min dp.dp_write_limit (ledger_total dp / 4))) ∧
    (∀ i, (dsl_pool_memory_pressure g dp).dp_space_towrite i = dp.dp_space_towrite i) ∧
    (∀ i, (dsl_pool_memory_pressure g dp).dp_tempreserved i = dp.dp_tempreserved i) ∧
    (dsl_pool_memory_pressure g dp).dp_throughput = dp.dp_throughput := by
  have hlim : (dsl_pool_memory_pressure g dp).dp_write_limit =
      max g.zfs_write_limit_min (min dp.dp_write_limit (ledger_total dp % 2 ^ 64 / 4)) := by
    unfold dsl_pool_memory_pressure
    split_ifs with h
    · rw [h]
      omega
    · simp only [space_inuse_eq]
      rfl
  have hmod : ledger_total dp % 2 ^ 64 ≤ ledger_total dp := Nat.mod_le _ _
  refine ⟨hlim, ?_, ?_, ?_, ?_, ?_, ?_, ?_⟩
  · rw [hlim]; omega
  · rw [hlim]; omega
  · rw [hlim]; omega
  · intro hfit
    rw [hlim, Nat.mod_eq_of_lt hfit]
  · intro i
    unfold dsl_pool_memory_pressure
    split_ifs <;> rfl
  · intro i
    unfold dsl_pool_memory_pressure
    split_ifs <;> rfl
  · unfold dsl_pool_memory_pressure
    split_ifs <;> rfl

/-! ## Recomputation of the write limit at the end of `dsl_pool_sync` -/

@[simp] theorem write_limit_ceiling_min (env : sync_env) (g : zfs_globals) :
    (write_limit_ceiling env g).zfs_write_limit_min = g.zfs_write_limit_min := by
  unfold write_limit_ceiling
  split_ifs <;> rfl

@[simp] theorem write_limit_ceiling_synctime (env : sync_env) (g : zfs_globals) :
    (write_limit_ceiling env g).zfs_txg_synctime_ms = g.zfs_txg_synctime_ms := by
  unfold write_limit_ceiling
  split_ifs <;> rfl

/-- A ceiling that was recomputed is at least the floor. -/
theorem write_limit_ceiling_inflated (env : sync_env) (g : zfs_globals)
    (h : env.physmem ≠ g.old_physmem ∧ g.zfs_write_limit_shift ≠ 0) :
    g.zfs_write_limit_min ≤ (write_limit_ceiling env g).zfs_write_limit_inflated := by
  unfold write_limit_ceiling
  rw [if_pos h]
  exact le_max_left _ _

/-- When its two assertions hold, `dsl_pool_sync` returns, with the ceiling
step applied to the globals and the retune step applied to the pool. -/
theorem dsl_pool_sync_eq (env : sync_env) (g : zfs_globals) (dp : dsl_pool) (txg : Nat)
    (hres : (env.sync_phases dp txg).1.dp_tempreserved (txg_slot txg) = 0)
    (hmin : 0 < g.zfs_write_limit_min) :
    dsl_pool_sync env g dp txg =
      some (write_limit_ceiling env g,
        write_limit_retune (write_limit_ceiling env g)
          (space_towrite_clear (env.sync_phases dp txg).1 txg)
          (dp.dp_space_towrite (txg_slot txg)) (env.sync_phases dp txg).2) := by
  unfold dsl_pool_sync
  have h1 : (space_towrite_clear (env.sync_phases dp txg).1 txg).dp_tempreserved (txg_slot txg)
      = 0 := hres
  simp only [h1, if_true, write_limit_ceiling_min, gt_iff_lt, hmin]

/-- The millisecond count `write_time / MICROSEC` as the unsigned divisor of
the throughput computation, for a time that passed the gate. -/
theorem to_u64_millis (write_time : Int) (hgt : MICROSEC < write_time)
    (hrange : write_time < 2 ^ 63) :
    to_u64 (Int.tdiv write_time MICROSEC) = (write_time / MICROSEC).toNat ∧
    1 ≤ (write_time / MICROSEC).toNat := by
  unfold MICROSEC at *
  have h0 : (0 : Int) ≤ write_time := by omega
  rw [Int.tdiv_eq_ediv h0 (by decide)]
  have hq0 : 0 ≤ write_time / 1000000 := Int.ediv_nonneg h0 (by decide)
  have hq1 : 1 ≤ write_time / 1000000 := by omega
  have hq2 : write_time / 1000000 < 2 ^ 63 := by omega
  obtain ⟨q, hq⟩ := Int.eq_ofNat_of_zero_le hq0
  rw [hq] at hq1 hq2 ⊢
  have hq3 : q < U64 := by
    unfold U64
    have : (q : Int) < 2 ^ 64 := by omega
    exact_mod_cast this
  rw [to_u64_of_nat q hq3, Int.toNat_ofNat]
  exact ⟨rfl, by exact_mod_cast hq1⟩

/-- The update reads nothing of the pool but the old throughput estimate. -/
theorem throughput_update_clear (g : zfs_globals) (dp : dsl_pool) (txg data_written : Nat)
    (write_time : Int) :
    (throughput_update g (space_towrite_clear dp txg) data_written write_time).dp_throughput =
      (throughput_update g dp data_written write_time).dp_throughput ∧
    (throughput_update g (space_towrite_clear dp txg) data_written write_time).dp_write_limit =
      (throughput_update g dp data_written write_time).dp_write_limit :=
  ⟨rfl, rfl⟩

/-- The limit written by the update lies below the inflated ceiling, and above
the floor when the floor is below the ceiling. -/
theorem throughput_update_bounds (g : zfs_globals) (dp : dsl_pool) (data_written : Nat)
    (write_time : Int) :
    (throughput_update g dp data_written write_time).dp_write_limit ≤
      g.zfs_write_limit_inflated ∧
    (g.zfs_write_limit_min ≤ g.zfs_write_limit_inflated →
      g.zfs_write_limit_min ≤ (throughput_update g dp data_written write_time).dp_write_limit) := by
  unfold throughput_update
  constructor
  · exact min_le_left _ _
  · intro h
    exact le_min h (le_max_left _ _)

/-- C7 as stated fails, in two ways. With `zfs_write_limit_shift` set to 0 the
ceiling is never computed and `zfs_write_limit_inflated` keeps its initial
value 0: a run that writes 64 MiB in two seconds sets the limit to
`MIN(0, ...) = 0`, below the floor of 32 MiB. And a run that writes nothing
leaves the limit alone: after memory has shrunk from 2 GiB to 256 MiB the
limit of 1 GiB, which was within the old bounds, stays above the new inflated
ceiling of 192 MiB. -/
theorem limit_bounds_counterexample :
    ((dsl_pool_sync (env_example (2 ^ 18) 2000000000)
        { zfs_globals_init with zfs_write_limit_shift := 0 }
        (pool_with 0 (64 * MiB) 0 (32 * MiB) 0) 0).map
      (fun r => (r.1.zfs_write_limit_min, r.2.dp_write_limit, r.1.zfs_write_limit_inflated)) =
        some (32 * MiB, 0, 0) ∧
      ¬ (32 * MiB ≤ 0)) ∧
    ((32 * MiB ≤ 1024 * MiB ∧ 1024 * MiB ≤ 1536 * MiB) ∧
      (dsl_pool_sync (env_example (2 ^ 16) 0)
        { zfs_globals_init with
          old_physmem := 2 ^ 19
          zfs_write_limit_max := 256 * MiB
          zfs_write_limit_inflated := 1536 * MiB }
        (pool_with 0 0 0 (1024 * MiB) 0) 0).map
      (fun r => (r.1.zfs_write_limit_min, r.2.dp_write_limit, r.1.zfs_write_limit_inflated)) =
        some (32 * MiB, 1024 * MiB, 192 * MiB) ∧
      ¬ (1024 * MiB ≤ 192 * MiB)) := by
  decide

/-- C7, amended (limit bounds): a run of `dsl_pool_sync` whose assertions hold
returns, with the floor unchanged. If it performs the update (more than
`zfs_write_limit_min / 8` bytes written in more than `MICROSEC` nanoseconds),
then afterwards `dp_write_limit <= zfs_write_limit_inflated`, and
`zfs_write_limit_min <= dp_write_limit` as well provided that
`zfs_write_limit_min <= zfs_write_limit_inflated`, which holds whenever the
ceiling was recomputed in this run (`physmem` changed and the shift is nonzero).
If it does not perform the update, `dp_write_limit` is left as it was. -/
theorem limit_bounds (env : sync_env) (g : zfs_globals) (dp : dsl_pool) (txg : Nat)
    (hres : (env.sync_phases dp txg).1.dp_tempreserved (txg_slot txg) = 0)
    (hmin : 0 < g.zfs_write_limit_min) :
    ∃ g' dp', dsl_pool_sync env g dp txg = some (g', dp') ∧
      g'.zfs_write_limit_min = g.zfs_write_limit_min ∧
      ((g.zfs_write_limit_min / 8 < dp.dp_space_towrite (txg_slot txg) ∧
          MICROSEC < (env.sync_phases dp txg).2) →
        dp'.dp_write_limit ≤ g'.zfs_write_limit_inflated ∧
        (g'.zfs_write_limit_min ≤ g'.zfs_write_limit_inflated →
          g'.zfs_write_limit_min ≤ dp'.dp_write_limit)) ∧
      ((env.physmem ≠ g.old_physmem ∧ g.zfs_write_limit_shift ≠ 0) →
        g'.zfs_write_limit_min ≤ g'.zfs_write_limit_inflated) ∧
      (¬ (g.zfs_write_limit_min / 8 < dp.dp_space_towrite (txg_slot txg) ∧
          MICROSEC < (env.sync_phases dp txg).2) →
        dp'.dp_write_limit = (env.sync_phases dp txg).1.dp_write_limit) := by
  refine ⟨_, _, dsl_pool_sync_eq env g dp txg hres hmin, write_limit_ceiling_min env g,
    ?_, ?_, ?_⟩
  · intro hgate
    unfold write_limit_retune
    simp only [write_limit_ceiling_min, gt_iff_lt]
    rw [if_pos hgate]
    have hb := throughput_update_bounds (write_limit_ceiling env g)
      (space_towrite_clear (env.sync_phases dp txg).1 txg)
      (dp.dp_space_towrite (txg_slot txg)) (env.sync_phases dp txg).2
    simpa only [write_limit_ceiling_min] using hb
  · intro hrec
    simpa only [write_limit_ceiling_min] using write_limit_ceiling_inflated env g hrec
  · intro hgate
    unfold write_limit_retune
    simp only [write_limit_ceiling_min, gt_iff_lt]
    rw [if_neg hgate]
    rfl

/-- Instance of `limit_bounds`: the first run on a machine with 1 GiB, writing
64 MiB in two seconds; the limit ends between the floor and the ceiling. -/
theorem limit_bounds_witness :
    (((env_example (2 ^ 18) 2000000000).sync_phases
        (pool_with 0 (64 * MiB) 0 (32 * MiB) 0) 0).1.dp_tempreserved (txg_slot 0) = 0 ∧
      0 < zfs_globals_init.zfs_write_limit_min) ∧
    ∃ g' dp', dsl_pool_sync (env_example (2 ^ 18) 2000000000) zfs_globals_init
        (pool_with 0 (64 * MiB) 0 (32 * MiB) 0) 0 = some (g', dp') ∧
      g'.zfs_write_limit_min ≤ dp'.dp_write_limit ∧
      dp'.dp_write_limit ≤ g'.zfs_write_limit_inflated := by
  refine ⟨by decide, ?_⟩
  obtain ⟨g', dp', hrun, -, hupd, hrec, -⟩ :=
    limit_bounds (env_example (2 ^ 18) 2000000000) zfs_globals_init
      (pool_with 0 (64 * MiB) 0 (32 * MiB) 0) 0 (by decide) (by decide)
  have hgate := hupd (by decide)
  exact ⟨g', dp', hrun, hgate.2 (hrec (by decide)), hgate.1⟩

/-- C8 as stated fails for a prior estimate of zero: the first run that passes
the gate (64 MiB written in 2000 ms, so a sample of 33554 bytes per
millisecond) stores the sample itself as the estimate, not the blend
`sample / 4 + 3 * 0 / 4 = 8388`. -/
theorem retune_update_counterexample :
    (pool_with 0 (64 * MiB) 0 (32 * MiB) 0).dp_throughput = 0 ∧
    zfs_globals_init.zfs_write_limit_min / 8 <
      (pool_with 0 (64 * MiB) 0 (32 * MiB) 0).dp_space_towrite (txg_slot 0) ∧
    MICROSEC < (2000000000 : Int) ∧
    64 * MiB / ((2000000000 : Int) / MICROSEC).toNat = 33554 ∧
    (dsl_pool_sync (env_example (2 ^ 18) 2000000000) zfs_globals_init
        (pool_with 0 (64 * MiB) 0 (32 * MiB) 0) 0).map (fun r => r.2.dp_throughput) =
      some 33554 ∧
    33554 / 4 + 3 * 0 / 4 = 8388 ∧
    (33554 : Nat) ≠ 8388 := by
  decide

/-- C8, amended (retune update rule): in a run of `dsl_pool_sync` that performs
the update, with `sample = data_written / (write_time / MICROSEC)` computed from
the snapshot of `dp_space_towrite[txg mod W]` taken at the start of the run and
`old` the estimate before the update: if `old` is nonzero the new estimate is
`sample / 4 + 3 * old / 4` in 64-bit arithmetic (the plain integer expression
when `3 * old` and `data_written` fit in 64 bits); if `old` is zero the new
estimate is `sample` itself. In both cases the new limit is
`min(zfs_write_limit_inflated, max(zfs_write_limit_min,
dp_throughput * zfs_txg_synctime_ms))`, the product taken modulo `2^64`. -/
theorem retune_update (env : sync_env) (g : zfs_globals) (dp : dsl_pool) (txg : Nat)
    (hres : (env.sync_phases dp txg).1.dp_tempreserved (txg_slot txg) = 0)
    (hmin : 0 < g.zfs_write_limit_min)
    (hwritten : g.zfs_write_limit_min / 8 < dp.dp_space_towrite (txg_slot txg))
    (htime : MICROSEC < (env.sync_phases dp txg).2)
    (hrange : (env.sync_phases dp txg).2 < 2 ^ 63) :
    ∃ g' dp', dsl_pool_sync env g dp txg = some (g', dp') ∧
      ((env.sync_phases dp txg).1.dp_throughput ≠ 0 →
        dp'.dp_throughput =
          (dp.dp_space_towrite (txg_slot txg) /
                ((env.sync_phases dp txg).2 / MICROSEC).toNat / 4 +
              3 * (env.sync_phases dp txg).1.dp_throughput % 2 ^ 64 / 4) % 2 ^ 64) ∧
      ((env.sync_phases dp txg).1.dp_throughput ≠ 0 →
        3 * (env.sync_phases dp txg).1.dp_throughput < 2 ^ 64 →
        dp.dp_space_towrite (txg_slot txg) < 2 ^ 64 →
        dp'.dp_throughput =
          dp.dp_space_towrite (txg_slot txg) /
              ((env.sync_phases dp txg).2 / MICROSEC).toNat / 4 +
            3 * (env.sync_phases dp txg).1.dp_throughput / 4) ∧
      ((env.sync_phases dp txg).1.dp_throughput = 0 →
        dp'.dp_throughput =
          dp.dp_space_towrite (txg_slot txg) /
            ((env.sync_phases dp txg).2 / MICROSEC).toNat) ∧
      dp'.dp_write_limit =
        min g'.zfs_write_limit_inflated
          (max g'.zfs_write_limit_min
            (dp'.dp_throughput * to_u64 g.zfs_txg_synctime_ms % 2 ^ 64)) ∧
      (0 ≤ g.zfs_txg_synctime_ms → g.zfs_txg_synctime_ms < 2 ^ 31 →
        dp'.dp_throughput * g.zfs_txg_synctime_ms.toNat < 2 ^ 64 →
        dp'.dp_write_limit =
          min g'.zfs_write_limit_inflated
            (max g'.zfs_write_limit_min
              (dp'.dp_throughput * g.zfs_txg_synctime_ms.toNat))) := by
  obtain ⟨hdiv, hone⟩ := to_u64_millis (env.sync_phases dp txg).2 htime hrange
  have hrun := dsl_pool_sync_eq env g dp txg hres hmin
  have hretune : write_limit_retune (write_limit_ceiling env g)
      (space_towrite_clear (env.sync_phases dp txg).1 txg)
      (dp.dp_space_towrite (txg_slot txg)) (env.sync_phases dp txg).2 =
      throughput_update (write_limit_ceiling env g)
        (space_towrite_clear (env.sync_phases dp txg).1 txg)
        (dp.dp_space_towrite (txg_slot txg)) (env.sync_phases dp txg).2 := by
    unfold write_limit_retune
    simp only [write_limit_ceiling_min, gt_iff_lt]
    rw [if_pos ⟨hwritten, htime⟩]
  rw [hretune] at hrun
  refine ⟨_, _, hrun, ?_, ?_, ?_, ?_, ?_⟩
  · intro hold
    have hold' : (space_towrite_clear (env.sync_phases dp txg).1 txg).dp_throughput ≠ 0 := hold
    simp only [throughput_update, hold', ne_eq, not_false_eq_true, if_true, hdiv]
    rfl
  · intro hold h3 hdw
    have hold' : (space_towrite_clear (env.sync_phases dp txg).1 txg).dp_throughput ≠ 0 := hold
    have hold'' : (space_towrite_clear (env.sync_phases dp txg).1 txg).dp_throughput =
        (env.sync_phases dp txg).1.dp_throughput := rfl
    simp only [throughput_update, hold', ne_eq, not_false_eq_true, if_true, hdiv, hold'', U64]
    have hs : dp.dp_space_towrite (txg_slot txg) /
        ((env.sync_phases dp txg).2 / MICROSEC).toNat ≤ dp.dp_space_towrite (txg_slot txg) :=
      Nat.div_le_self _ _
    rw [Nat.mod_eq_of_lt h3, if_pos hold]
    apply Nat.mod_eq_of_lt
    omega
  · intro hold
    have hold' : (space_towrite_clear (env.sync_phases dp txg).1 txg).dp_throughput = 0 := hold
    simp only [throughput_update, hold', ne_eq, not_true_eq_false, if_false, hdiv]
  · simp only [throughput_update, write_limit_ceiling_min, write_limit_ceiling_synctime]
    rfl
  · intro h0 h31 hprod
    have hsync : to_u64 g.zfs_txg_synctime_ms = g.zfs_txg_synctime_ms.toNat := by
      obtain ⟨n, hn⟩ := Int.eq_ofNat_of_zero_le h0
      rw [hn] at h31 ⊢
      have hlt : n < U64 := by
        unfold U64
        have : (n : Int) < 2 ^ 64 := by omega
        exact_mod_cast this
      rw [to_u64_of_nat n hlt, Int.toNat_ofNat]
    simp only [throughput_update, write_limit_ceiling_min, write_limit_ceiling_synctime,
      hsync, U64] at hprod ⊢
    rw [Nat.mod_eq_of_lt hprod]

/-- Instance of `retune_update`: a prior estimate of 40000 bytes per millisecond
and 64 MiB written in two seconds; the new estimate is
`33554 / 4 + 3 * 40000 / 4 = 38388`. -/
theorem retune_update_witness :
    (((env_example (2 ^ 18) 2000000000).sync_phases
        (pool_with 0 (64 * MiB) 0 (32 * MiB) 40000) 0).1.dp_tempreserved (txg_slot 0) = 0 ∧
      0 < zfs_globals_init.zfs_write_limit_min ∧
      zfs_globals_init.zfs_write_limit_min / 8 <
        (pool_with 0 (64 * MiB) 0 (32 * MiB) 40000).dp_space_towrite (txg_slot 0) ∧
      MICROSEC < ((env_example (2 ^ 18) 2000000000).sync_phases
        (pool_with 0 (64 * MiB) 0 (32 * MiB) 40000) 0).2 ∧
      ((env_example (2 ^ 18) 2000000000).sync_phases
        (pool_with 0 (64 * MiB) 0 (32 * MiB) 40000) 0).2 < 2 ^ 63) ∧
    ∃ g' dp', dsl_pool_sync (env_example (2 ^ 18) 2000000000) zfs_globals_init
        (pool_with 0 (64 * MiB) 0 (32 * MiB) 40000) 0 = some (g', dp') ∧
      dp'.dp_throughput = 38388 := by
  refine ⟨by decide, ?_⟩
  obtain ⟨g', dp', hrun, -, hblend, -, -, -⟩ :=
    retune_update (env_example (2 ^ 18) 2000000000) zfs_globals_init
      (pool_with 0 (64 * MiB) 0 (32 * MiB) 40000) 0
      (by decide) (by decide) (by decide) (by decide) (by decide)
  refine ⟨g', dp', hrun, ?_⟩
  rw [hblend (by decide) (by decide) (by decide)]
  decide

/-- C9 as stated fails at the boundary: with exactly `zfs_write_limit_min / 8`
bytes (4 MiB) written in 2 ms the gate of the claim is open, but the code asks
for strictly more and updates nothing: the estimate stays 0 and the limit
32 MiB, where the update would have made them 2097152 and 768 MiB. -/
theorem retune_gate_counterexample :
    zfs_globals_init.zfs_write_limit_min / 8 ≤
      (pool_with 0 (4 * MiB) 0 (32 * MiB) 0).dp_space_towrite (txg_slot 0) ∧
    MICROSEC < (2000000 : Int) ∧
    (dsl_pool_sync (env_example (2 ^ 18) 2000000) zfs_globals_init
        (pool_with 0 (4 * MiB) 0 (32 * MiB) 0) 0).map
      (fun r => (r.2.dp_throughput, r.2.dp_write_limit)) = some (0, 32 * MiB) ∧
    (throughput_update (write_limit_ceiling (env_example (2 ^ 18) 2000000) zfs_globals_init)
      (pool_with 0 (4 * MiB) 0 (32 * MiB) 0) (4 * MiB) 2000000).dp_throughput = 2097152 ∧
    (throughput_update (write_limit_ceiling (env_example (2 ^ 18) 2000000) zfs_globals_init)
      (pool_with 0 (4 * MiB) 0 (32 * MiB) 0) (4 * MiB) 2000000).dp_write_limit = 768 * MiB := by
  decide

/-- C9, amended (retune gate): a run of `dsl_pool_sync` whose assertions hold
updates the throughput estimate and the limit (to the values of the update
`throughput_update`, computed from the snapshot and the measured time with the
globals of this run) whenever strictly more than `zfs_write_limit_min / 8` bytes
were written and `write_time > MICROSEC`; in every other run it leaves both
`dp_throughput` and `dp_write_limit` unchanged. -/
theorem retune_gate (env : sync_env) (g : zfs_globals) (dp : dsl_pool) (txg : Nat)
    (hres : (env.sync_phases dp txg).1.dp_tempreserved (txg_slot txg) = 0)
    (hmin : 0 < g.zfs_write_limit_min) :
    ∃ g' dp', dsl_pool_sync env g dp txg = some (g', dp') ∧
      ((g.zfs_write_limit_min / 8 < dp.dp_space_towrite (txg_slot txg) ∧
          MICROSEC < (env.sync_phases dp txg).2) →
        dp'.dp_throughput =
          (throughput_update g' (env.sync_phases dp txg).1
            (dp.dp_space_towrite (txg_slot txg)) (env.sync_phases dp txg).2).dp_throughput ∧
        dp'.dp_write_limit =
          (throughput_update g' (env.sync_phases dp txg).1
            (dp.dp_space_towrite (txg_slot txg)) (env.sync_phases dp txg).2).dp_write_limit) ∧
      (¬ (g.zfs_write_limit_min / 8 < dp.dp_space_towrite (txg_slot txg) ∧
          MICROSEC < (env.sync_phases dp txg).2) →
        dp'.dp_throughput = (env.sync_phases dp txg).1.dp_throughput ∧
        dp'.dp_write_limit = (env.sync_phases dp txg).1.dp_write_limit) := by
  refine ⟨_, _, dsl_pool_sync_eq env g dp txg hres hmin, ?_, ?_⟩
  · intro hgate
    unfold write_limit_retune
    simp only [write_limit_ceiling_min, gt_iff_lt]
    rw [if_pos hgate]
    exact throughput_update_clear _ _ _ _ _
  · intro hgate
    unfold write_limit_retune
    simp only [write_limit_ceiling_min, gt_iff_lt]
    rw [if_neg hgate]
    exact ⟨rfl, rfl⟩

/-- Instance of `retune_gate`: 4 MiB plus one byte written in 2 ms passes the
gate, and the estimate becomes 2097152 bytes per millisecond. -/
theorem retune_gate_witness :
    (((env_example (2 ^ 18) 2000000).sync_phases
        (pool_with 0 (4 * MiB + 1) 0 (32 * MiB) 0) 0).1.dp_tempreserved (txg_slot 0) = 0 ∧
      0 < zfs_globals_init.zfs_write_limit_min) ∧
    ∃ g' dp', dsl_pool_sync (env_example (2 ^ 18) 2000000) zfs_globals_init
        (pool_with 0 (4 * MiB + 1) 0 (32 * MiB) 0) 0 = some (g', dp') ∧
      dp'.dp_throughput = 2097152 := by
  refine ⟨by decide, ?_⟩
  obtain ⟨g', dp', hrun, hupd, -⟩ :=
    retune_gate (env_example (2 ^ 18) 2000000) zfs_globals_init
      (pool_with 0 (4 * MiB + 1) 0 (32 * MiB) 0) 0 (by decide) (by decide)
  refine ⟨g', dp', hrun, ?_⟩
  rw [(hupd (by decide)).1]
  have hg : g' = write_limit_ceiling (env_example (2 ^ 18) 2000000) zfs_globals_init := by
    have h2 := dsl_pool_sync_eq (env_example (2 ^ 18) 2000000) zfs_globals_init
      (pool_with 0 (4 * MiB + 1) 0 (32 * MiB) 0) 0 (by decide) (by decide)
    rw [hrun] at h2
    exact (Prod.mk.inj (Option.some.inj h2)).1
  subst hg
  decide

/-! ## Accounting closure -/

/-- The retune step leaves the ledger alone. -/
theorem write_limit_retune_ledger (g : zfs_globals) (dp : dsl_pool) (data_written : Nat)
    (write_time : Int) :
    (write_limit_retune g dp data_written write_time).dp_tempreserved = dp.dp_tempreserved ∧
    (write_limit_retune g dp data_written write_time).dp_space_towrite =
      dp.dp_space_towrite := by
  unfold write_limit_retune
  split_ifs <;> exact ⟨rfl, rfl⟩

/-- A run that returns has passed the assertion on `dp_tempreserved` and has
cleared `dp_space_towrite` for its slot. -/
theorem dsl_pool_sync_ledger (env : sync_env) (g g' : zfs_globals) (dp dp' : dsl_pool)
    (txg : Nat) (hrun : dsl_pool_sync env g dp txg = some (g', dp')) :
    dp'.dp_tempreserved (txg_slot txg) = 0 ∧ dp'.dp_space_towrite (txg_slot txg) = 0 := by
  unfold dsl_pool_sync at hrun
  simp only at hrun
  split_ifs at hrun with h1 h2
  have hdp := (Prod.mk.inj (Option.some.inj hrun)).2
  have hl := write_limit_retune_ledger (write_limit_ceiling env g)
    (space_towrite_clear (env.sync_phases dp txg).1 txg)
    (dp.dp_space_towrite (txg_slot txg)) (env.sync_phases dp txg).2
  rw [hdp] at hl
  constructor
  · rw [hl.1]; exact h1
  · rw [hl.2]
    simp [space_towrite_clear]

/-- A run whose synchronisation phases leave a reservation behind fails its
assertion. -/
theorem dsl_pool_sync_unreleased (env : sync_env) (g : zfs_globals) (dp : dsl_pool) (txg : Nat)
    (hres : (env.sync_phases dp txg).1.dp_tempreserved (txg_slot txg) ≠ 0) :
    dsl_pool_sync env g dp txg = none := by
  unfold dsl_pool_sync
  have h1 : ¬ (space_towrite_clear (env.sync_phases dp txg).1 txg).dp_tempreserved
      (txg_slot txg) = 0 := hres
  simp only [h1, if_false]

/-- A call that is refused leaves the pool as it is. -/
theorem tempreserve_space_dp_of_fail (g : zfs_globals) (dp : dsl_pool) (space txg : Nat)
    (hfail : (dsl_pool_tempreserve_space g dp space txg).ret ≠ 0) :
    (dsl_pool_tempreserve_space g dp space txg).dp = dp := by
  unfold dsl_pool_tempreserve_space at hfail ⊢
  by_cases hthr : g.zfs_no_write_throttle = 0
  · simp only [hthr, ne_eq, not_true_eq_false, if_false] at hfail ⊢
    split_ifs at hfail ⊢ <;> first | rfl | exact absurd rfl hfail
  · simp [hthr] at hfail

/-- The unsigned value of a signed operand, as an integer. -/
theorem to_u64_cast (x : Int) : ((to_u64 x : Nat) : Int) = x % 2 ^ 64 := by
  unfold to_u64 U64
  rw [Int.toNat_of_nonneg (Int.emod_nonneg _ (by norm_num))]
  norm_num

/-- In either build a run that returns has cleared `dp_space_towrite` for its
slot and has left `dp_tempreserved` as the synchronisation phases left it. -/
theorem dsl_pool_sync_build_ledger (debug : Bool) (env : sync_env) (g g' : zfs_globals)
    (dp dp' : dsl_pool) (txg : Nat)
    (hrun : dsl_pool_sync_build debug env g dp txg = some (g', dp')) :
    dp'.dp_space_towrite (txg_slot txg) = 0 ∧
    dp'.dp_tempreserved (txg_slot txg) =
      (env.sync_phases dp txg).1.dp_tempreserved (txg_slot txg) ∧
    (debug = true → dp'.dp_tempreserved (txg_slot txg) = 0) := by
  have hshape : dp' = write_limit_retune (write_limit_ceiling env g)
      (space_towrite_clear (env.sync_phases dp txg).1 txg)
      (dp.dp_space_towrite (txg_slot txg)) (env.sync_phases dp txg).2 := by
    unfold dsl_pool_sync_build at hrun
    split_ifs at hrun with hd
    · unfold dsl_pool_sync at hrun
      simp only at hrun
      split_ifs at hrun
      exact ((Prod.mk.inj (Option.some.inj hrun)).2).symm
    · exact ((Prod.mk.inj (Option.some.inj hrun)).2).symm
  have hl := write_limit_retune_ledger (write_limit_ceiling env g)
    (space_towrite_clear (env.sync_phases dp txg).1 txg)
    (dp.dp_space_towrite (txg_slot txg)) (env.sync_phases dp txg).2
  rw [← hshape] at hl
  refine ⟨?_, ?_, ?_⟩
  · rw [hl.2]
    simp [space_towrite_clear]
  · rw [hl.1]
    rfl
  · intro hd
    unfold dsl_pool_sync_build at hrun
    rw [if_pos hd] at hrun
    exact (dsl_pool_sync_ledger env g g' dp dp' txg hrun).1

/-- A sequence that a debug build accepts runs the same way without the
assertions. -/
theorem ledger_calls_debug (g : zfs_globals) (txg : Nat) :
    ∀ (calls : List ledger_call) (dp dp1 : dsl_pool),
      ledger_calls true g txg calls dp = some dp1 →
      ledger_calls false g txg calls dp = some dp1 := by
  intro calls
  induction calls with
  | nil => intro dp dp1 h; exact h
  | cons call rest ih =>
    intro dp dp1 h
    cases call with
    | reserve amount =>
      simp only [ledger_calls] at h ⊢
      exact ih _ _ h
    | release amount =>
      simp only [ledger_calls, dsl_pool_tempreserve_clear_build, if_true] at h
      simp only [ledger_calls, dsl_pool_tempreserve_clear_build, Bool.false_eq_true, if_false]
      unfold dsl_pool_tempreserve_clear at h
      split_ifs at h
      exact ih _ _ h

/-- Without assertions every sequence runs to its end, and the counter of the
slot ends at its initial value plus the balance of the sequence, modulo
`2^64`. -/
theorem ledger_calls_net (g : zfs_globals) (txg : Nat) :
    ∀ (calls : List ledger_call) (dp : dsl_pool),
      ∃ dp1, ledger_calls false g txg calls dp = some dp1 ∧
        ((dp1.dp_tempreserved (txg_slot txg) : Nat) : Int) % 2 ^ 64 =
          ((dp.dp_tempreserved (txg_slot txg) : Int) + ledger_net g txg calls dp) % 2 ^ 64 ∧
        (dp.dp_tempreserved (txg_slot txg) < 2 ^ 64 →
          dp1.dp_tempreserved (txg_slot txg) < 2 ^ 64) := by
  intro calls
  induction calls with
  | nil =>
    intro dp
    exact ⟨dp, rfl, by simp [ledger_net], fun h => h⟩
  | cons call rest ih =>
    intro dp
    cases call with
    | reserve amount =>
      obtain ⟨dp1, hrun, hnet, hwf⟩ := ih (dsl_pool_tempreserve_space g dp amount txg).dp
      refine ⟨dp1, by simpa only [ledger_calls] using hrun, ?_, ?_⟩
      · simp only [ledger_net]
        by_cases hok : (dsl_pool_tempreserve_space g dp amount txg).ret = 0
        · rw [if_pos hok]
          have hdp := tempreserve_space_dp_of_ok g dp amount txg hok
          rw [hdp] at hnet
          simp only [tempreserved_add_slot, U64] at hnet
          push_cast at hnet
          rw [hdp]
          omega
        · rw [if_neg hok]
          have hdp := tempreserve_space_dp_of_fail g dp amount txg hok
          rw [hdp] at hnet ⊢
          omega
      · intro h
        apply hwf
        by_cases hok : (dsl_pool_tempreserve_space g dp amount txg).ret = 0
        · rw [tempreserve_space_dp_of_ok g dp amount txg hok, tempreserved_add_slot]
          exact Nat.mod_lt _ (by decide)
        · rw [tempreserve_space_dp_of_fail g dp amount txg hok]
          exact h
    | release amount =>
      obtain ⟨dp1, hrun, hnet, hwf⟩ := ih (tempreserved_add dp txg (to_u64 (-amount)))
      refine ⟨dp1, ?_, ?_, ?_⟩
      · simpa only [ledger_calls, dsl_pool_tempreserve_clear_build, Bool.false_eq_true,
          if_false] using hrun
      · simp only [ledger_net]
        simp only [tempreserved_add_slot, U64] at hnet
        push_cast at hnet
        rw [to_u64_cast] at hnet
        omega
      · intro _
        apply hwf
        rw [tempreserved_add_slot]
        exact Nat.mod_lt _ (by decide)

/-- The run on the detailed pool clears `dp_space_towrite` for its slot, and
its trace is that of the synchronisation phases. -/
theorem dsl_pool_sync_run_ledger (debug : Bool) (env : sync_env) (c : sync_collab)
    (g g' : zfs_globals) (fuel txg : Nat) (s s' : sync_state) (tr : List sync_event)
    (hrun : dsl_pool_sync_run debug env c g fuel s txg = some (g', s', tr)) :
    s'.dp.dp_space_towrite (txg_slot txg) = 0 ∧
    (debug = true → s'.dp.dp_tempreserved (txg_slot txg) = 0) ∧
    tr = (dsl_pool_sync_phases debug c fuel s txg).1.trace ∧
    (dsl_pool_sync_phases debug c fuel s txg).1.status = run_status.ok := by
  unfold dsl_pool_sync_run at hrun
  split_ifs at hrun with hok
  cases hs : dsl_pool_sync_build debug (sync_env_of debug env c fuel s) g s.dp txg with
  | none => rw [hs] at hrun; exact absurd hrun (by simp)
  | some r =>
    obtain ⟨g1, dp1⟩ := r
    rw [hs] at hrun
    simp only [Option.some.injEq, Prod.mk.injEq] at hrun
    obtain ⟨-, hs', htr⟩ := hrun
    have hz := dsl_pool_sync_build_ledger debug (sync_env_of debug env c fuel s) g g1 s.dp dp1
      txg hs
    subst hs'
    exact ⟨hz.1, hz.2.2, htr.symm, hok⟩

/-- C11 as stated fails for a sequence that leaves a reservation behind: the
run does not clear `dp_tempreserved`, it only asserts that it is zero. After a
single accepted reservation of 5 bytes for txg 0, the run of a build without
assertions completes with `dp_tempreserved[0] == 5` (and `dp_space_towrite[0]`
cleared); a debug build fails the assertion and does not complete. -/
theorem accounting_closure_counterexample :
    (dsl_pool_tempreserve_space zfs_globals_init (pool_with 0 (40 * MiB) 0 (64 * MiB) 0)
      5 0).ret = 0 ∧
    (ledger_calls_then_sync false (env_example (2 ^ 18) 2000000000) zfs_globals_init 0
        [ledger_call.reserve 5] (pool_with 0 (40 * MiB) 0 (64 * MiB) 0)).map
      (fun r => (r.2.dp_tempreserved (txg_slot 0), r.2.dp_space_towrite (txg_slot 0))) =
        some (5, 0) ∧
    (ledger_calls_then_sync true (env_example (2 ^ 18) 2000000000) zfs_globals_init 0
        [ledger_call.reserve 5] (pool_with 0 (40 * MiB) 0 (64 * MiB) 0)).isSome = false := by
  decide

/-- C11, amended (accounting closure): for every sequence of
`dsl_pool_tempreserve_space` / `dsl_pool_tempreserve_clear` calls on a txg
followed by `dsl_pool_sync(dp, txg)`, in either build, with synchronisation
phases that leave the counter alone: once the run has completed,
`dp_space_towrite[txg mod W] == 0`, and `dp_tempreserved[txg mod W]` is what the
sequence left, its initial value plus the amounts of the accepted reservations
minus the amounts released, modulo `2^64`. Hence it is zero after the run
exactly when the sequence is balanced in that sense, in particular when the
counter started at zero and every accepted reservation was matched by a
release; a debug build completes only then. A build without assertions
completes after every sequence. -/
theorem accounting_closure (debug : Bool) (env : sync_env) (g g' : zfs_globals)
    (dp dp' : dsl_pool) (txg : Nat) (calls : List ledger_call)
    (hwf : dp.dp_tempreserved (txg_slot txg) < 2 ^ 64)
    (hphases : ∀ d, (env.sync_phases d txg).1.dp_tempreserved (txg_slot txg) =
      d.dp_tempreserved (txg_slot txg))
    (hrun : ledger_calls_then_sync debug env g txg calls dp = some (g', dp')) :
    dp'.dp_space_towrite (txg_slot txg) = 0 ∧
    ((dp'.dp_tempreserved (txg_slot txg) : Nat) : Int) =
      ((dp.dp_tempreserved (txg_slot txg) : Int) + ledger_net g txg calls dp) % 2 ^ 64 ∧
    (dp'.dp_tempreserved (txg_slot txg) = 0 ↔
      ((dp.dp_tempreserved (txg_slot txg) : Int) + ledger_net g txg calls dp) % 2 ^ 64 = 0) ∧
    (dp.dp_tempreserved (txg_slot txg) = 0 → ledger_net g txg calls dp = 0 →
      dp'.dp_tempreserved (txg_slot txg) = 0) ∧
    (debug = true → dp'.dp_tempreserved (txg_slot txg) = 0) ∧
    (txg_slot txg).val = txg % TXG_SIZE ∧
    (ledger_calls_then_sync false env g txg calls dp).isSome = true := by
  obtain ⟨dp2, hfree, hnet, hbound⟩ := ledger_calls_net g txg calls dp
  have hsome : (ledger_calls_then_sync false env g txg calls dp).isSome = true := by
    unfold ledger_calls_then_sync
    rw [hfree]
    rfl
  unfold ledger_calls_then_sync at hrun
  cases hc : ledger_calls debug g txg calls dp with
  | none => rw [hc] at hrun; exact absurd hrun (by simp)
  | some dp1 =>
    rw [hc] at hrun
    simp only at hrun
    have hsame : dp2 = dp1 := by
      cases debug with
      | false => rw [hc] at hfree; exact (Option.some.inj hfree).symm
      | true =>
        have h2 := ledger_calls_debug g txg calls dp dp1 hc
        rw [h2] at hfree
        exact (Option.some.inj hfree).symm
    subst hsame
    obtain ⟨htw, htr, hdbg⟩ := dsl_pool_sync_build_ledger debug env g g' dp2 dp' txg hrun
    rw [hphases dp2] at htr
    have hlt := hbound hwf
    have hval : ((dp'.dp_tempreserved (txg_slot txg) : Nat) : Int) =
        ((dp.dp_tempreserved (txg_slot txg) : Int) + ledger_net g txg calls dp) % 2 ^ 64 := by
      rw [htr, ← hnet]
      omega
    refine ⟨htw, hval, ?_, ?_, hdbg, txg_slot_val txg, hsome⟩
    · constructor
      · intro hz
        rw [← hval, hz]
        rfl
      · intro hz
        rw [hz] at hval
        exact_mod_cast hval
    · intro h0 hbal
      rw [h0, hbal] at hval
      simp only [Nat.cast_zero, add_zero, Int.zero_emod] at hval
      exact_mod_cast hval

/-- Instance of `accounting_closure`: in a debug build 20 MiB are reserved and
released for txg 0 while 40 MiB are pending; the sequence is balanced, the run
that follows completes and the counter of slot 0 is zero. -/
theorem accounting_closure_witness :
    ((pool_with 0 (40 * MiB) 0 (64 * MiB) 0).dp_tempreserved (txg_slot 0) < 2 ^ 64 ∧
      (∀ d, ((env_example (2 ^ 18) 2000000000).sync_phases d 0).1.dp_tempreserved (txg_slot 0) =
        d.dp_tempreserved (txg_slot 0)) ∧
      ledger_calls_then_sync true (env_example (2 ^ 18) 2000000000) zfs_globals_init 0
          [ledger_call.reserve (20 * MiB), ledger_call.release 20971520]
          (pool_with 0 (40 * MiB) 0 (64 * MiB) 0) =
        some (write_limit_ceiling (env_example (2 ^ 18) 2000000000) zfs_globals_init,
          write_limit_retune
            (write_limit_ceiling (env_example (2 ^ 18) 2000000000) zfs_globals_init)
            (space_towrite_clear
              (tempreserved_add (tempreserved_add (pool_with 0 (40 * MiB) 0 (64 * MiB) 0)
                0 (20 * MiB)) 0 (to_u64 (-20971520))) 0)
            (40 * MiB) 2000000000)) ∧
    ledger_net zfs_globals_init 0
        [ledger_call.reserve (20 * MiB), ledger_call.release 20971520]
        (pool_with 0 (40 * MiB) 0 (64 * MiB) 0) = 0 ∧
    (write_limit_retune
        (write_limit_ceiling (env_example (2 ^ 18) 2000000000) zfs_globals_init)
        (space_towrite_clear
          (tempreserved_add (tempreserved_add (pool_with 0 (40 * MiB) 0 (64 * MiB) 0)
            0 (20 * MiB)) 0 (to_u64 (-20971520))) 0)
        (40 * MiB) 2000000000).dp_tempreserved (txg_slot 0) = 0 := by
  have hrun : ledger_calls_then_sync true (env_example (2 ^ 18) 2000000000) zfs_globals_init 0
      [ledger_call.reserve (20 * MiB), ledger_call.release 20971520]
      (pool_with 0 (40 * MiB) 0 (64 * MiB) 0) =
      some (write_limit_ceiling (env_example (2 ^ 18) 2000000000) zfs_globals_init,
        write_limit_retune
          (write_limit_ceiling (env_example (2 ^ 18) 2000000000) zfs_globals_init)
          (space_towrite_clear
            (tempreserved_add (tempreserved_add (pool_with 0 (40 * MiB) 0 (64 * MiB) 0)
              0 (20 * MiB)) 0 (to_u64 (-20971520))) 0)
          (40 * MiB) 2000000000) := rfl
  have hbal : ledger_net zfs_globals_init 0
      [ledger_call.reserve (20 * MiB), ledger_call.release 20971520]
      (pool_with 0 (40 * MiB) 0 (64 * MiB) 0) = 0 := by decide
  exact ⟨⟨by decide, fun _ => rfl, hrun⟩, hbal,
    (accounting_closure true _ _ _ _ _ _ _ (by decide) (fun _ => rfl) hrun).2.2.2.1
      (by decide) hbal⟩

/-! ## Declared intent -/

/-- C14 (declare intent): for every pool state, txg and signed 64-bit byte
count, `dsl_pool_willuse_space` adds the count to `dp_space_towrite[txg mod W]`
(modulo `2^64`) when it is positive and changes nothing when it is zero or
negative, so that the amount added is `max(bytes, 0)`; in both cases
`dp_tempreserved` in every slot, `dp_space_towrite` in every other slot, the
write limit and the throughput estimate are unchanged. -/
theorem willuse_space_adds (dp : dsl_pool) (space : Int) (txg : Nat)
    (hrange : space < 2 ^ 63) :
    (0 < space →
      (dsl_pool_willuse_space dp space txg).dp_space_towrite (txg_slot txg) =
        (dp.dp_space_towrite (txg_slot txg) + space.toNat) % 2 ^ 64) ∧
    (space ≤ 0 → dsl_pool_willuse_space dp space txg = dp) ∧
    (max space 0).toNat = space.toNat ∧
    (txg_slot txg).val = txg % TXG_SIZE ∧
    (∀ i, i ≠ txg_slot txg →
      (dsl_pool_willuse_space dp space txg).dp_space_towrite i = dp.dp_space_towrite i) ∧
    (∀ i, (dsl_pool_willuse_space dp space txg).dp_tempreserved i = dp.dp_tempreserved i) ∧
    (dsl_pool_willuse_space dp space txg).dp_write_limit = dp.dp_write_limit ∧
    (dsl_pool_willuse_space dp space txg).dp_throughput = dp.dp_throughput := by
  refine ⟨?_, ?_, ?_, txg_slot_val txg, ?_, ?_, ?_, ?_⟩
  · intro hpos
    obtain ⟨n, rfl⟩ := Int.eq_ofNat_of_zero_le (le_of_lt hpos)
    have hn : n < U64 := by
      unfold U64
      have : (n : Int) < 2 ^ 64 := by omega
      exact_mod_cast this
    unfold dsl_pool_willuse_space
    rw [if_pos hpos, to_u64_of_nat n hn]
    simp [U64]
  · intro hneg
    unfold dsl_pool_willuse_space
    rw [if_neg (by omega)]
  · omega
  · intro i hi
    unfold dsl_pool_willuse_space
    split_ifs
    · simp [Function.update_noteq hi]
    · rfl
  · intro i
    unfold dsl_pool_willuse_space
    split_ifs <;> rfl
  · unfold dsl_pool_willuse_space
    split_ifs <;> rfl
  · unfold dsl_pool_willuse_space
    split_ifs <;> rfl

/-- Instance of `willuse_space_adds`: declaring 4096 bytes on top of 40 MiB. -/
theorem willuse_space_adds_witness :
    (4096 : Int) < 2 ^ 63 ∧
    (dsl_pool_willuse_space (pool_with 0 (40 * MiB) 0 (64 * MiB) 0) 4096 0).dp_space_towrite
        (txg_slot 0) =
      ((pool_with 0 (40 * MiB) 0 (64 * MiB) 0).dp_space_towrite (txg_slot 0) +
        (4096 : Int).toNat) % 2 ^ 64 :=
  ⟨by decide,
    (willuse_space_adds (pool_with 0 (40 * MiB) 0 (64 * MiB) 0) 4096 0 (by decide)).1
      (by decide)⟩

/-! ## Adjusted size -/

theorem SPA_MINDEVSIZE_half : SPA_MINDEVSIZE >>> 1 = 33554432 := by decide

/-- The reservation in plain arithmetic. -/
theorem adjustedsize_resv_eq (space : Nat) (netfree : Bool) :
    adjustedsize_resv space netfree =
      if netfree then max (space / 64) 33554432 / 2 else max (space / 64) 33554432 := by
  unfold adjustedsize_resv
  rw [SPA_MINDEVSIZE_half]
  simp [Nat.shiftRight_eq_div_pow]

/-- C16 as stated fails for a data space below the reservation: with 20 MiB of
space the reservation is 32 MiB and the unsigned difference wraps to
`2^64 - 12 MiB`, far above the space; with `netfree` the reservation is 16 MiB
and the result 4 MiB, smaller than the result without `netfree`. -/
theorem adjustedsize_counterexample :
    adjustedsize_resv (20 * MiB) false = 32 * MiB ∧
    dsl_pool_adjustedsize (20 * MiB) false = 2 ^ 64 - 12 * MiB ∧
    20 * MiB < dsl_pool_adjustedsize (20 * MiB) false ∧
    adjustedsize_resv (20 * MiB) true = 16 * MiB ∧
    dsl_pool_adjustedsize (20 * MiB) true = 4 * MiB ∧
    dsl_pool_adjustedsize (20 * MiB) true < dsl_pool_adjustedsize (20 * MiB) false := by
  decide

/-- C16, amended (adjusted size): for every 64-bit data-space value `space`,
`dsl_pool_adjustedsize` reserves `resv = max(space / 64, SPA_MINDEVSIZE / 2)`,
about 1/64 of the space or at least 32 MiB, cut in half when `netfree` is true,
and returns `space - resv` in unsigned 64-bit arithmetic. Whenever `space` is at
least `SPA_MINDEVSIZE / 2` the reservation fits: the result is the exact
difference, it never exceeds `space`, and the `netfree` result is never smaller
than the other one. -/
theorem adjustedsize_bounds (space : Nat) (hwf : space < 2 ^ 64)
    (hfit : SPA_MINDEVSIZE / 2 ≤ space) :
    adjustedsize_resv space false = max (space / 64) (SPA_MINDEVSIZE / 2) ∧
    adjustedsize_resv space true = max (space / 64) (SPA_MINDEVSIZE / 2) / 2 ∧
    (∀ netfree, adjustedsize_resv space netfree ≤ space ∧
      dsl_pool_adjustedsize space netfree = space - adjustedsize_resv space netfree ∧
      dsl_pool_adjustedsize space netfree ≤ space) ∧
    dsl_pool_adjustedsize space false ≤ dsl_pool_adjustedsize space true := by
  have hhalf : SPA_MINDEVSIZE / 2 = 33554432 := by decide
  rw [hhalf] at hfit ⊢
  have key : ∀ netfree, adjustedsize_resv space netfree ≤ space ∧
      dsl_pool_adjustedsize space netfree = space - adjustedsize_resv space netfree := by
    intro netfree
    unfold dsl_pool_adjustedsize
    rw [adjustedsize_resv_eq]
    unfold U64
    cases netfree <;> simp only [Bool.false_eq_true, if_false, if_true] <;> omega
  refine ⟨?_, ?_, ?_, ?_⟩
  · rw [adjustedsize_resv_eq]; simp
  · rw [adjustedsize_resv_eq]; simp
  · intro netfree
    refine ⟨(key netfree).1, (key netfree).2, ?_⟩
    rw [(key netfree).2]
    omega
  · rw [(key false).2, (key true).2, adjustedsize_resv_eq, adjustedsize_resv_eq]
    simp only [Bool.false_eq_true, if_false, if_true]
    omega

/-- Instance of `adjustedsize_bounds`: a data space of 64 GiB, of which 1 GiB
is reserved. -/
theorem adjustedsize_bounds_witness :
    (64 * 1024 * MiB < 2 ^ 64 ∧ SPA_MINDEVSIZE / 2 ≤ 64 * 1024 * MiB) ∧
    dsl_pool_adjustedsize (64 * 1024 * MiB) false ≤ dsl_pool_adjustedsize (64 * 1024 * MiB) true :=
  ⟨by decide, (adjustedsize_bounds (64 * 1024 * MiB) (by decide) (by decide)).2.2.2⟩

/-! ## Division safety of the retune -/

/-- Behind the gate `write_time > MICROSEC` the divisor is at least one. -/
theorem throughput_divisor_pos (write_time : Int) (hgt : MICROSEC < write_time)
    (hrange : write_time < 2 ^ 63) : 1 ≤ throughput_divisor write_time := by
  obtain ⟨hdiv, hone⟩ := to_u64_millis write_time hgt hrange
  unfold throughput_divisor
  rw [hdiv]
  exact hone

/-- With a nonzero divisor the checked update is the update. -/
theorem throughput_update_checked_eq (g : zfs_globals) (dp : dsl_pool) (data_written : Nat)
    (write_time : Int) (hne : throughput_divisor write_time ≠ 0) :
    throughput_update_checked g dp data_written write_time =
      some (throughput_update g dp data_written write_time) := by
  unfold throughput_update_checked checked_div
  rw [if_neg hne]
  rfl

/-- C17 (retune division safety): for every `data_written`, every floor and
every signed 64-bit `write_time`, zero and negative values included, the last
`if` of `dsl_pool_sync` never divides by zero: with the division checked it
still returns, and returns what the unchecked code computes; the division
`data_written / (write_time / MICROSEC)` is evaluated only behind the gate, where
its divisor is at least 1, and is not evaluated at all when
`write_time <= MICROSEC`. -/
theorem retune_division_safe (g : zfs_globals) (dp : dsl_pool) (data_written : Nat)
    (write_time : Int) (hrange : write_time < 2 ^ 63) :
    write_limit_retune_checked g dp data_written write_time =
      some (write_limit_retune g dp data_written write_time) ∧
    ((g.zfs_write_limit_min / 8 < data_written ∧ MICROSEC < write_time) →
      1 ≤ throughput_divisor write_time ∧
      throughput_divisor write_time = (write_time / MICROSEC).toNat ∧
      checked_div data_written (throughput_divisor write_time) =
        some (data_written / (write_time / MICROSEC).toNat)) ∧
    (write_time ≤ MICROSEC →
      write_limit_retune_checked g dp data_written write_time = some dp) := by
  refine ⟨?_, ?_, ?_⟩
  · unfold write_limit_retune_checked write_limit_retune
    split_ifs with hgate
    · have hpos := throughput_divisor_pos write_time hgate.2 hrange
      exact throughput_update_checked_eq g dp data_written write_time (by omega)
    · rfl
  · intro hgate
    have hpos := throughput_divisor_pos write_time hgate.2 hrange
    have hdiv : throughput_divisor write_time = (write_time / MICROSEC).toNat :=
      (to_u64_millis write_time hgate.2 hrange).1
    refine ⟨hpos, hdiv, ?_⟩
    unfold checked_div
    rw [if_neg (by omega), hdiv]
  · intro hle
    unfold write_limit_retune_checked
    rw [if_neg]
    intro hgate
    exact absurd hgate.2 (by omega)

/-- Instance of `retune_division_safe`: a read overhead larger than the
measured time makes `write_time` negative, and the retune returns without
dividing. -/
theorem retune_division_safe_witness :
    ((1500000 : Int) - 2000000 < 2 ^ 63) ∧
    write_limit_retune_checked zfs_globals_init (pool_with 0 0 0 (32 * MiB) 0) (64 * MiB)
        (1500000 - 2000000) =
      some (write_limit_retune zfs_globals_init (pool_with 0 0 0 (32 * MiB) 0) (64 * MiB)
        (1500000 - 2000000)) :=
  ⟨by decide,
    (retune_division_safe zfs_globals_init (pool_with 0 0 0 (32 * MiB) 0) (64 * MiB)
      (1500000 - 2000000) (by decide)).1⟩

/-! ## Sync tasks and the sync pass -/

/-- Whatever the collaborators do, the loop adds nothing but sync-task calls
to the trace. -/
theorem drain_sync_tasks_trace (c : sync_collab) (txg : Nat) :
    ∀ (fuel : Nat) (s : sync_state) (tr : List sync_event),
      ∃ ds : List Nat, (drain_sync_tasks c txg fuel s tr).trace =
        tr ++ ds.map sync_event.dsl_sync_task_sync := by
  intro fuel
  induction fuel with
  | zero =>
    intro s tr
    exact ⟨[], by simp [drain_sync_tasks]⟩
  | succ n ih =>
    intro s tr
    unfold drain_sync_tasks
    cases hq : s.dp_sync_tasks (txg_slot txg) with
    | nil => exact ⟨[], by simp⟩
    | cons dst rest =>
      simp only
      obtain ⟨ds, hds⟩ := ih
        (c.dsl_sync_task_sync dst
          { s with dp_sync_tasks := Function.update s.dp_sync_tasks (txg_slot txg) rest })
        (tr ++ [sync_event.dsl_sync_task_sync dst])
      exact ⟨dst :: ds, by rw [hds]; simp⟩

/-- When running a sync task does not touch the queue of the txg, a loop with
enough iterations runs the queued tasks in order, once each, and empties the
queue. -/
theorem drain_sync_tasks_quiet (c : sync_collab) (txg : Nat)
    (hquiet : ∀ dst st, (c.dsl_sync_task_sync dst st).dp_sync_tasks (txg_slot txg) =
      st.dp_sync_tasks (txg_slot txg)) :
    ∀ (fuel : Nat) (s : sync_state) (tr : List sync_event),
      (s.dp_sync_tasks (txg_slot txg)).length ≤ fuel →
      (drain_sync_tasks c txg fuel s tr).status = run_status.ok ∧
      (drain_sync_tasks c txg fuel s tr).trace =
        tr ++ (s.dp_sync_tasks (txg_slot txg)).map sync_event.dsl_sync_task_sync ∧
      (drain_sync_tasks c txg fuel s tr).state.dp_sync_tasks (txg_slot txg) = [] := by
  intro fuel
  induction fuel with
  | zero =>
    intro s tr hlen
    have hq : s.dp_sync_tasks (txg_slot txg) = [] := List.length_eq_zero.mp (by omega)
    simp [drain_sync_tasks, hq]
  | succ n ih =>
    intro s tr hlen
    unfold drain_sync_tasks
    cases hq : s.dp_sync_tasks (txg_slot txg) with
    | nil => simp [hq]
    | cons dst rest =>
      simp only
      have hnext : (c.dsl_sync_task_sync dst
          { s with dp_sync_tasks := Function.update s.dp_sync_tasks (txg_slot txg) rest
            }).dp_sync_tasks (txg_slot txg) = rest := by
        rw [hquiet]
        simp
      have hlen' : rest.length ≤ n := by
        rw [hq] at hlen
        simp only [List.length_cons] at hlen
        omega
      have h := ih (c.dsl_sync_task_sync dst
          { s with dp_sync_tasks := Function.update s.dp_sync_tasks (txg_slot txg) rest })
        (tr ++ [sync_event.dsl_sync_task_sync dst]) (by rw [hnext]; exact hlen')
      rw [hnext] at h
      refine ⟨h.1, ?_, h.2.2⟩
      rw [h.2.1]
      simp

/-- The events of step 7 are calls of `dsl_dir_diduse_space`. -/
theorem mos_space_fold_trace (c : sync_collab) (s : sync_state) :
    ∀ e ∈ (mos_space_fold c s).2, ∃ u v w, e = sync_event.dsl_dir_diduse_space u v w := by
  intro e he
  unfold mos_space_fold at he
  split_ifs at he
  · simp only [List.mem_singleton] at he
    exact ⟨_, _, _, he⟩
  · simp at he

/-- The events of step 8 are calls of `dmu_objset_sync`. -/
theorem mos_objset_sync_trace (c : sync_collab) (txg : Nat) (s : sync_state) :
    ∀ e ∈ (mos_objset_sync c txg s).2, e = sync_event.dmu_objset_sync := by
  intro e he
  unfold mos_objset_sync at he
  split_ifs at he
  · simpa using he
  · simp at he

/-- The events of step 9 are calls of `dsl_sync_task_sync`. -/
theorem sync_tasks_step_trace (debug : Bool) (c : sync_collab) (txg fuel : Nat)
    (s : sync_state) :
    ∃ ds : List Nat, (sync_tasks_step debug c txg fuel s).trace =
      ds.map sync_event.dsl_sync_task_sync := by
  unfold sync_tasks_step
  split_ifs
  · exact ⟨[], rfl⟩
  · obtain ⟨ds, hds⟩ := drain_sync_tasks_trace c txg fuel s []
    exact ⟨ds, by simpa using hds⟩
  · exact ⟨[], rfl⟩

/-- No sync task is run before step 9. -/
theorem no_task_before_step9 (c : sync_collab) (s : sync_state) (txg dst : Nat) :
    sync_event.dsl_sync_task_sync dst ∉
      (mos_space_fold c (state_before_fold c s txg)).2 ++
        (mos_objset_sync c txg (mos_space_fold c (state_before_fold c s txg)).1).2 := by
  intro hmem
  rcases List.mem_append.mp hmem with h | h
  · obtain ⟨u, v, w, huvw⟩ := mos_space_fold_trace c _ _ h
    exact absurd huvw (by simp)
  · exact absurd (mos_objset_sync_trace c txg _ _ h) (by simp)

/-- Step 9 on the first sync pass, and on any pass of a build without
assertions: the queued tasks are run in order, once each, and the queue is left
empty. -/
theorem sync_tasks_step_drains (debug : Bool) (c : sync_collab) (txg fuel : Nat)
    (s : sync_state)
    (hquiet : ∀ dst st, (c.dsl_sync_task_sync dst st).dp_sync_tasks (txg_slot txg) =
      st.dp_sync_tasks (txg_slot txg))
    (hfuel : (s.dp_sync_tasks (txg_slot txg)).length ≤ fuel)
    (hgo : c.spa_sync_pass = 1 ∨ debug = false) :
    (sync_tasks_step debug c txg fuel s).status = run_status.ok ∧
    (sync_tasks_step debug c txg fuel s).trace =
      (s.dp_sync_tasks (txg_slot txg)).map sync_event.dsl_sync_task_sync ∧
    (sync_tasks_step debug c txg fuel s).state.dp_sync_tasks (txg_slot txg) = [] := by
  unfold sync_tasks_step
  by_cases hq : s.dp_sync_tasks (txg_slot txg) = []
  · simp [hq]
  · have hstop : ¬ (debug = true ∧ c.spa_sync_pass ≠ 1) := by
      rintro ⟨hd, hp⟩
      rcases hgo with h | h
      · exact hp h
      · rw [h] at hd
        exact absurd hd (by decide)
    rw [if_pos hq, if_neg hstop]
    have h := drain_sync_tasks_quiet c txg hquiet fuel s [] hfuel
    simpa using h

/-- Step 9 on a later sync pass of a debug build: nothing is run and the pool
is left as it is; the assertion fails exactly when tasks are queued. -/
theorem sync_tasks_step_stops (c : sync_collab) (txg fuel : Nat) (s : sync_state)
    (hpass : c.spa_sync_pass ≠ 1) :
    (sync_tasks_step true c txg fuel s).trace = [] ∧
    (sync_tasks_step true c txg fuel s).state = s ∧
    ((sync_tasks_step true c txg fuel s).status = run_status.assertion_failed ↔
      s.dp_sync_tasks (txg_slot txg) ≠ []) := by
  unfold sync_tasks_step
  by_cases hq : s.dp_sync_tasks (txg_slot txg) = []
  · simp [hq]
  · simp [hq, hpass]

/-- C12 as stated fails on a later pass of a build without assertions: the code
tests only whether the sync-task set is empty, so with `spa_sync_pass == 2` and
tasks 7 and 8 queued both are drained and executed, after the meta-objset sync,
and the set is left empty. Only a debug build stops, at
`ASSERT(spa_sync_pass == 1)`. -/
theorem sync_tasks_pass_order_counterexample :
    (collab_example 2).spa_sync_pass = 2 ∧
    (dsl_pool_sync_phases false (collab_example 2) 2 (sync_state_example [7, 8] true)
        0).1.status = run_status.ok ∧
    (dsl_pool_sync_phases false (collab_example 2) 2 (sync_state_example [7, 8] true)
        0).1.trace =
      [sync_event.dmu_objset_sync, sync_event.dsl_sync_task_sync 7,
        sync_event.dsl_sync_task_sync 8, sync_event.dmu_tx_commit] ∧
    (dsl_pool_sync_phases false (collab_example 2) 2 (sync_state_example [7, 8] true)
        0).1.state.dp_sync_tasks (txg_slot 0) = [] ∧
    (dsl_pool_sync_phases true (collab_example 2) 2 (sync_state_example [7, 8] true)
        0).1.status = run_status.assertion_failed := by
  decide

/-- C12, amended (pass ordering for sync tasks): in every run of the
synchronisation phases of `dsl_pool_sync`, in either build, the queued sync
tasks are drained and executed whenever the sync-task set of the txg is not
empty; the pass number is only asserted to be 1 at that point. So sync tasks are
executed if and only if tasks are queued and this is the first sync pass or the
build has no assertions. When they are executed, every queued task is run
exactly once, in queue order, after the fold and the meta-objset sync of step 8
and before `dmu_tx_commit`, and the set is left empty. On a later pass of a
debug build no sync task is executed and the set is left untouched: the run
fails `ASSERT(spa_sync_pass == 1)` exactly when tasks are queued. The theorem
assumes that running a sync task does not touch the sync-task set of the txg and
that the loop is given as many iterations as tasks are queued. -/
theorem sync_tasks_pass_order (debug : Bool) (c : sync_collab) (s : sync_state)
    (txg fuel : Nat)
    (hquiet : ∀ dst st, (c.dsl_sync_task_sync dst st).dp_sync_tasks (txg_slot txg) =
      st.dp_sync_tasks (txg_slot txg))
    (hfuel : ((state_before_tasks c s txg).dp_sync_tasks (txg_slot txg)).length ≤ fuel) :
    ((∃ dst, sync_event.dsl_sync_task_sync dst ∈
        (dsl_pool_sync_phases debug c fuel s txg).1.trace) ↔
      ((state_before_tasks c s txg).dp_sync_tasks (txg_slot txg) ≠ [] ∧
        (c.spa_sync_pass = 1 ∨ debug = false))) ∧
    ((c.spa_sync_pass = 1 ∨ debug = false) →
      (dsl_pool_sync_phases debug c fuel s txg).1.status = run_status.ok ∧
      (dsl_pool_sync_phases debug c fuel s txg).1.trace =
        (mos_space_fold c (state_before_fold c s txg)).2 ++
          (mos_objset_sync c txg (mos_space_fold c (state_before_fold c s txg)).1).2 ++
          ((state_before_tasks c s txg).dp_sync_tasks (txg_slot txg)).map
            sync_event.dsl_sync_task_sync ++
          [sync_event.dmu_tx_commit] ∧
      (∀ dst, sync_event.dsl_sync_task_sync dst ∉
        (mos_space_fold c (state_before_fold c s txg)).2 ++
          (mos_objset_sync c txg (mos_space_fold c (state_before_fold c s txg)).1).2) ∧
      ((mos_space_fold c (state_before_fold c s txg)).1.mos_dirty_dnodes (txg_slot txg) = true →
        (mos_objset_sync c txg (mos_space_fold c (state_before_fold c s txg)).1).2 =
          [sync_event.dmu_objset_sync]) ∧
      (∀ dst, ((dsl_pool_sync_phases debug c fuel s txg).1.trace).count
          (sync_event.dsl_sync_task_sync dst) =
        ((state_before_tasks c s txg).dp_sync_tasks (txg_slot txg)).count dst) ∧
      (dsl_pool_sync_phases debug c fuel s txg).1.state.dp_sync_tasks (txg_slot txg) = []) ∧
    ((c.spa_sync_pass ≠ 1 ∧ debug = true) →
      (∀ dst, sync_event.dsl_sync_task_sync dst ∉
        (dsl_pool_sync_phases debug c fuel s txg).1.trace) ∧
      (dsl_pool_sync_phases debug c fuel s txg).1.state.dp_sync_tasks =
        (state_before_tasks c s txg).dp_sync_tasks ∧
      ((dsl_pool_sync_phases debug c fuel s txg).1.status = run_status.assertion_failed ↔
        (state_before_tasks c s txg).dp_sync_tasks (txg_slot txg) ≠ [])) := by
  have hbefore := no_task_before_step9 c s txg
  have hdrain : (c.spa_sync_pass = 1 ∨ debug = false) →
      (dsl_pool_sync_phases debug c fuel s txg).1.status = run_status.ok ∧
      (dsl_pool_sync_phases debug c fuel s txg).1.trace =
        (mos_space_fold c (state_before_fold c s txg)).2 ++
          (mos_objset_sync c txg (mos_space_fold c (state_before_fold c s txg)).1).2 ++
          ((state_before_tasks c s txg).dp_sync_tasks (txg_slot txg)).map
            sync_event.dsl_sync_task_sync ++
          [sync_event.dmu_tx_commit] ∧
      (dsl_pool_sync_phases debug c fuel s txg).1.state.dp_sync_tasks (txg_slot txg) = [] := by
    intro hgo
    obtain ⟨h1, h2, h3⟩ :=
      sync_tasks_step_drains debug c txg fuel (state_before_tasks c s txg) hquiet hfuel hgo
    unfold state_before_tasks at h1 h2 h3
    refine ⟨h1, ?_, h3⟩
    simp only [dsl_pool_sync_phases, h1, h2, if_true]
    rfl
  have hstop : (c.spa_sync_pass ≠ 1 ∧ debug = true) →
      (dsl_pool_sync_phases debug c fuel s txg).1.trace =
        (mos_space_fold c (state_before_fold c s txg)).2 ++
          (mos_objset_sync c txg (mos_space_fold c (state_before_fold c s txg)).1).2 ++
          (if (dsl_pool_sync_phases debug c fuel s txg).1.status = run_status.ok then
            [sync_event.dmu_tx_commit] else []) ∧
      (dsl_pool_sync_phases debug c fuel s txg).1.state = state_before_tasks c s txg ∧
      ((dsl_pool_sync_phases debug c fuel s txg).1.status = run_status.assertion_failed ↔
        (state_before_tasks c s txg).dp_sync_tasks (txg_slot txg) ≠ []) := by
    rintro ⟨hpass, hd⟩
    subst hd
    obtain ⟨h1, h2, h3⟩ :=
      sync_tasks_step_stops c txg fuel (state_before_tasks c s txg) hpass
    unfold state_before_tasks at h1 h2 h3
    refine ⟨?_, h2, h3⟩
    simp only [dsl_pool_sync_phases, h1, List.append_nil]
  have hnone : (c.spa_sync_pass ≠ 1 ∧ debug = true) → ∀ dst,
      sync_event.dsl_sync_task_sync dst ∉ (dsl_pool_sync_phases debug c fuel s txg).1.trace := by
    intro hs dst hmem
    rw [(hstop hs).1] at hmem
    rcases List.mem_append.mp hmem with h | h
    · exact hbefore dst h
    · split_ifs at h <;> simp at h
  refine ⟨?_, ?_, ?_⟩
  · constructor
    · rintro ⟨dst, hmem⟩
      by_cases hgo : c.spa_sync_pass = 1 ∨ debug = false
      · refine ⟨?_, hgo⟩
        intro hq
        rw [(hdrain hgo).2.1, hq] at hmem
        simp only [List.map_nil, List.append_nil] at hmem
        rcases List.mem_append.mp hmem with h | h
        · exact hbefore dst h
        · simp at h
      · have hs : c.spa_sync_pass ≠ 1 ∧ debug = true := by
          refine ⟨fun h => hgo (Or.inl h), ?_⟩
          cases debug with
          | false => exact absurd (Or.inr rfl) hgo
          | true => rfl
        exact absurd hmem (hnone hs dst)
    · rintro ⟨hq, hgo⟩
      obtain ⟨dst, rest, hcons⟩ := List.exists_cons_of_ne_nil hq
      refine ⟨dst, ?_⟩
      rw [(hdrain hgo).2.1, hcons]
      simp
  · intro hgo
    refine ⟨(hdrain hgo).1, (hdrain hgo).2.1, hbefore, ?_, ?_, (hdrain hgo).2.2⟩
    · intro hdirty
      unfold mos_objset_sync
      rw [if_pos hdirty]
    · intro dst
      rw [(hdrain hgo).2.1]
      have hzero : List.count (sync_event.dsl_sync_task_sync dst)
          ((mos_space_fold c (state_before_fold c s txg)).2 ++
            (mos_objset_sync c txg (mos_space_fold c (state_before_fold c s txg)).1).2) = 0 :=
        List.count_eq_zero_of_not_mem (hbefore dst)
      have hinj : Function.Injective sync_event.dsl_sync_task_sync := by
        intro a b hab
        exact sync_event.dsl_sync_task_sync.inj hab
      rw [List.count_append, List.count_append, hzero,
        List.count_map_of_injective _ _ hinj]
      simp
  · intro hs
    refine ⟨hnone hs, ?_, (hstop hs).2.2⟩
    rw [(hstop hs).2.1]

/-- Instance of `sync_tasks_pass_order`: two tasks queued on the first pass of
a debug build with a dirty meta-objset; both are run, after the meta-objset
sync. -/
theorem sync_tasks_pass_order_witness :
    ((∀ dst st, ((collab_example 1).dsl_sync_task_sync dst st).dp_sync_tasks (txg_slot 0) =
        st.dp_sync_tasks (txg_slot 0)) ∧
      ((state_before_tasks (collab_example 1) (sync_state_example [7, 8] true) 0).dp_sync_tasks
        (txg_slot 0)).length ≤ 2) ∧
    (dsl_pool_sync_phases true (collab_example 1) 2 (sync_state_example [7, 8] true)
      0).1.status = run_status.ok ∧
    (dsl_pool_sync_phases true (collab_example 1) 2 (sync_state_example [7, 8] true)
        0).1.trace =
      [sync_event.dmu_objset_sync, sync_event.dsl_sync_task_sync 7,
        sync_event.dsl_sync_task_sync 8, sync_event.dmu_tx_commit] :=
  ⟨⟨fun _ _ => rfl, by decide⟩,
    ((sync_tasks_pass_order true (collab_example 1) (sync_state_example [7, 8] true) 0 2
      (fun _ _ => rfl) (by decide)).2.1 (Or.inl rfl)).1,
    by decide⟩

/-! ## The fold of the meta-objset deltas -/

/-- A value in the `int64_t` range is held as it is. -/
theorem wrap_i64_of_range (x : Int) (hlo : -2 ^ 63 ≤ x) (hhi : x < 2 ^ 63) :
    wrap_i64 x = x := by
  unfold wrap_i64
  omega

/-- The value held is in the `int64_t` range. -/
theorem wrap_i64_range (x : Int) : -2 ^ 63 ≤ wrap_i64 x ∧ wrap_i64 x < 2 ^ 63 := by
  unfold wrap_i64
  omega

/-- Adding to a wrapped value wraps like adding to the exact one. -/
theorem wrap_i64_add (x y : Int) : wrap_i64 (wrap_i64 x + y) = wrap_i64 (x + y) := by
  unfold wrap_i64
  omega

/-- The accumulators after a sequence of calls: what they held before plus the
component-wise sums of the arguments, in `int64_t` arithmetic. -/
theorem mos_diduse_calls_sums (debug : Bool) :
    ∀ (calls : List (Int × Int × Int)) (s0 s1 : sync_state),
      wrap_i64 s0.dp_mos_used_delta = s0.dp_mos_used_delta →
      wrap_i64 s0.dp_mos_compressed_delta = s0.dp_mos_compressed_delta →
      wrap_i64 s0.dp_mos_uncompressed_delta = s0.dp_mos_uncompressed_delta →
      mos_diduse_calls debug calls s0 = some s1 →
      s1.dp_mos_used_delta =
        wrap_i64 (s0.dp_mos_used_delta + (calls.map (fun a => a.1)).sum) ∧
      s1.dp_mos_compressed_delta =
        wrap_i64 (s0.dp_mos_compressed_delta + (calls.map (fun a => a.2.1)).sum) ∧
      s1.dp_mos_uncompressed_delta =
        wrap_i64 (s0.dp_mos_uncompressed_delta + (calls.map (fun a => a.2.2)).sum) := by
  intro calls
  induction calls with
  | nil =>
    intro s0 s1 hu hc hn h
    simp only [mos_diduse_calls, Option.some.injEq] at h
    subst h
    simp only [List.map_nil, List.sum_nil, add_zero]
    exact ⟨hu.symm, hc.symm, hn.symm⟩
  | cons a rest ih =>
    intro s0 s1 hu hc hn h
    obtain ⟨used, comp, uncomp⟩ := a
    simp only [mos_diduse_calls] at h
    cases hcall : dsl_pool_mos_diduse_space debug s0 used comp uncomp with
    | none => rw [hcall] at h; exact absurd h (by simp)
    | some s2 =>
      rw [hcall] at h
      simp only at h
      unfold dsl_pool_mos_diduse_space at hcall
      split_ifs at hcall
      simp only [Option.some.injEq] at hcall
      subst hcall
      have hw : ∀ x : Int, wrap_i64 (wrap_i64 x) = wrap_i64 x := by
        intro x
        have := wrap_i64_add x 0
        simpa using this
      obtain ⟨h1, h2, h3⟩ := ih _ s1 (hw _) (hw _) (hw _) h
      simp only [List.map_cons, List.sum_cons] at h1 h2 h3 ⊢
      rw [wrap_i64_add] at h1 h2 h3
      refine ⟨?_, ?_, ?_⟩
      · rw [h1, add_assoc]
      · rw [h2, add_assoc]
      · rw [h3, add_assoc]

/-- After step 7 the three accumulators are zero. -/
theorem mos_space_fold_zero (c : sync_collab) (s : sync_state) :
    (mos_space_fold c s).1.dp_mos_used_delta = 0 ∧
    (mos_space_fold c s).1.dp_mos_compressed_delta = 0 ∧
    (mos_space_fold c s).1.dp_mos_uncompressed_delta = 0 := by
  unfold mos_space_fold
  split_ifs with h
  · exact ⟨rfl, rfl, rfl⟩
  · simp only [not_or, not_not] at h
    exact h

/-- C13 as stated fails when the deltas cancel: after a block of the
meta-objset is born (4096 bytes used, 512 compressed and uncompressed) and
killed again, the three sums are zero and step 7 makes no call of
`dsl_dir_diduse_space` at all, where the claim has one call passing the sums.
And the sums that are passed are those of `int64_t` arithmetic: after the calls
`(2^63 - 1, 0, 0)` and `(1, 0, 0)` the call passes `-2^63`, not `2^63`. -/
theorem mos_delta_fold_counterexample :
    ((sync_state_example [] false).dp_mos_used_delta = 0 ∧
      (sync_state_example [] false).dp_mos_compressed_delta = 0 ∧
      (sync_state_example [] false).dp_mos_uncompressed_delta = 0) ∧
    (mos_diduse_calls true [(4096, 512, 512), (-4096, -512, -512)]
        (sync_state_example [] false)).map
      (fun s => (s.dp_mos_used_delta, s.dp_mos_compressed_delta,
        s.dp_mos_uncompressed_delta)) = some (0, 0, 0) ∧
    (mos_diduse_calls true [(4096, 512, 512), (-4096, -512, -512)]
        (sync_state_example [] false)).map
      (fun s => (mos_space_fold (collab_example 1) s).2) = some [] ∧
    (mos_diduse_calls true [(4096, 512, 512), (-4096, -512, -512)]
        (sync_state_example [] false)).map
      (fun s => (dsl_pool_sync_phases true (collab_example 1) 0 s 0).1.trace) =
        some [sync_event.dmu_tx_commit] ∧
    (mos_diduse_calls true [(2 ^ 63 - 1, 0, 0), (1, 0, 0)]
        (sync_state_example [] false)).map
      (fun s => (mos_space_fold (collab_example 1) s).2) =
        some [sync_event.dsl_dir_diduse_space (-2 ^ 63) 0 0] := by
  decide

/-- C13, amended (meta-object delta fold): for every sequence of
`dsl_pool_mos_diduse_space(used, comp, uncomp)` calls made since the previous
fold (accumulators at zero), in either build, the accumulators hold the
component-wise sums of the arguments in `int64_t` arithmetic (the exact sums
whenever these lie in the `int64_t` range), and step 7 of `dsl_pool_sync` passes
exactly these values to `dsl_dir_diduse_space` on `dp_mos_dir`, in one call,
unless all three are zero, in which case it makes no call. Either way all three
accumulators are zero immediately afterwards, and the fold comes first in the
trace of the run: before the meta-objset sync and before any sync task. -/
theorem mos_delta_fold (debug : Bool) (calls : List (Int × Int × Int))
    (s0 s1 : sync_state)
    (hzero : s0.dp_mos_used_delta = 0 ∧ s0.dp_mos_compressed_delta = 0 ∧
      s0.dp_mos_uncompressed_delta = 0)
    (hcalls : mos_diduse_calls debug calls s0 = some s1) :
    (s1.dp_mos_used_delta = wrap_i64 (calls.map (fun a => a.1)).sum ∧
      s1.dp_mos_compressed_delta = wrap_i64 (calls.map (fun a => a.2.1)).sum ∧
      s1.dp_mos_uncompressed_delta = wrap_i64 (calls.map (fun a => a.2.2)).sum) ∧
    (∀ c : sync_collab,
      (¬ (wrap_i64 (calls.map (fun a => a.1)).sum = 0 ∧
          wrap_i64 (calls.map (fun a => a.2.1)).sum = 0 ∧
          wrap_i64 (calls.map (fun a => a.2.2)).sum = 0) →
        (mos_space_fold c s1).2 =
          [sync_event.dsl_dir_diduse_space (wrap_i64 (calls.map (fun a => a.1)).sum)
            (wrap_i64 (calls.map (fun a => a.2.1)).sum)
            (wrap_i64 (calls.map (fun a => a.2.2)).sum)]) ∧
      ((wrap_i64 (calls.map (fun a => a.1)).sum = 0 ∧
          wrap_i64 (calls.map (fun a => a.2.1)).sum = 0 ∧
          wrap_i64 (calls.map (fun a => a.2.2)).sum = 0) →
        (mos_space_fold c s1).2 = []) ∧
      (mos_space_fold c s1).1.dp_mos_used_delta = 0 ∧
      (mos_space_fold c s1).1.dp_mos_compressed_delta = 0 ∧
      (mos_space_fold c s1).1.dp_mos_uncompressed_delta = 0) ∧
    (((-2 ^ 63 ≤ (calls.map (fun a => a.1)).sum ∧ (calls.map (fun a => a.1)).sum < 2 ^ 63) ∧
        (-2 ^ 63 ≤ (calls.map (fun a => a.2.1)).sum ∧
          (calls.map (fun a => a.2.1)).sum < 2 ^ 63) ∧
        (-2 ^ 63 ≤ (calls.map (fun a => a.2.2)).sum ∧
          (calls.map (fun a => a.2.2)).sum < 2 ^ 63)) →
      (s1.dp_mos_used_delta = (calls.map (fun a => a.1)).sum ∧
        s1.dp_mos_compressed_delta = (calls.map (fun a => a.2.1)).sum ∧
        s1.dp_mos_uncompressed_delta = (calls.map (fun a => a.2.2)).sum) ∧
      ∀ c : sync_collab,
        (¬ ((calls.map (fun a => a.1)).sum = 0 ∧ (calls.map (fun a => a.2.1)).sum = 0 ∧
            (calls.map (fun a => a.2.2)).sum = 0) →
          (mos_space_fold c s1).2 =
            [sync_event.dsl_dir_diduse_space (calls.map (fun a => a.1)).sum
              (calls.map (fun a => a.2.1)).sum (calls.map (fun a => a.2.2)).sum]) ∧
        (((calls.map (fun a => a.1)).sum = 0 ∧ (calls.map (fun a => a.2.1)).sum = 0 ∧
            (calls.map (fun a => a.2.2)).sum = 0) →
          (mos_space_fold c s1).2 = [])) ∧
    (∀ (build : Bool) (c : sync_collab) (s : sync_state) (txg fuel : Nat),
      state_before_fold c s txg = s1 →
      ∃ rest, (dsl_pool_sync_phases build c fuel s txg).1.trace =
          (mos_space_fold c s1).2 ++ rest ∧
        (∀ u v w, sync_event.dsl_dir_diduse_space u v w ∉ rest) ∧
        (∀ e ∈ (mos_space_fold c s1).2, e ≠ sync_event.dmu_objset_sync ∧
          ∀ dst, e ≠ sync_event.dsl_sync_task_sync dst)) := by
  have hw0 : wrap_i64 0 = 0 := by decide
  obtain ⟨h1, h2, h3⟩ := mos_diduse_calls_sums debug calls s0 s1
    (by rw [hzero.1]; exact hw0) (by rw [hzero.2.1]; exact hw0)
    (by rw [hzero.2.2]; exact hw0) hcalls
  rw [hzero.1, zero_add] at h1
  rw [hzero.2.1, zero_add] at h2
  rw [hzero.2.2, zero_add] at h3
  have hfold : ∀ c : sync_collab,
      (¬ (s1.dp_mos_used_delta = 0 ∧ s1.dp_mos_compressed_delta = 0 ∧
          s1.dp_mos_uncompressed_delta = 0) →
        (mos_space_fold c s1).2 =
          [sync_event.dsl_dir_diduse_space s1.dp_mos_used_delta s1.dp_mos_compressed_delta
            s1.dp_mos_uncompressed_delta]) ∧
      ((s1.dp_mos_used_delta = 0 ∧ s1.dp_mos_compressed_delta = 0 ∧
          s1.dp_mos_uncompressed_delta = 0) →
        (mos_space_fold c s1).2 = []) := by
    intro c
    constructor
    · intro hne
      unfold mos_space_fold
      rw [if_pos]
      by_contra hall
      simp only [not_or, not_not] at hall
      exact hne hall
    · intro hall
      unfold mos_space_fold
      rw [if_neg]
      simp only [not_or, not_not]
      exact hall
  refine ⟨⟨h1, h2, h3⟩, ?_, ?_, ?_⟩
  · intro c
    have hf := hfold c
    rw [h1, h2, h3] at hf
    exact ⟨hf.1, hf.2, mos_space_fold_zero c s1⟩
  · rintro ⟨⟨hu1, hu2⟩, ⟨hc1, hc2⟩, ⟨hn1, hn2⟩⟩
    have e1 := wrap_i64_of_range _ hu1 hu2
    have e2 := wrap_i64_of_range _ hc1 hc2
    have e3 := wrap_i64_of_range _ hn1 hn2
    rw [e1] at h1
    rw [e2] at h2
    rw [e3] at h3
    refine ⟨⟨h1, h2, h3⟩, ?_⟩
    intro c
    have hf := hfold c
    rw [h1, h2, h3] at hf
    exact hf
  · intro build c s txg fuel hstate
    obtain ⟨ds, hds⟩ := sync_tasks_step_trace build c txg fuel
      (mos_objset_sync c txg (mos_space_fold c s1).1).1
    refine ⟨(mos_objset_sync c txg (mos_space_fold c s1).1).2 ++
      (sync_tasks_step build c txg fuel (mos_objset_sync c txg (mos_space_fold c s1).1).1).trace ++
      (if (sync_tasks_step build c txg fuel
          (mos_objset_sync c txg (mos_space_fold c s1).1).1).status =
          run_status.ok then [sync_event.dmu_tx_commit] else []), ?_, ?_, ?_⟩
    · simp only [dsl_pool_sync_phases, hstate, List.append_assoc]
    · intro u v w hmem
      rcases List.mem_append.mp hmem with h | h
      · rcases List.mem_append.mp h with h | h
        · exact absurd (mos_objset_sync_trace c txg _ _ h) (by simp)
        · rw [hds] at h
          simp at h
      · split_ifs at h <;> simp at h
    · intro e he
      obtain ⟨u, v, w, huvw⟩ := mos_space_fold_trace c s1 e he
      subst huvw
      exact ⟨by simp, fun dst => by simp⟩

/-- Instance of `mos_delta_fold`: two calls since the previous fold; their sums
are passed on in one call. -/
theorem mos_delta_fold_witness :
    (((sync_state_example [] false).dp_mos_used_delta = 0 ∧
        (sync_state_example [] false).dp_mos_compressed_delta = 0 ∧
        (sync_state_example [] false).dp_mos_uncompressed_delta = 0) ∧
      mos_diduse_calls true [(4096, 512, 512), (8192, 1024, 1024)]
          (sync_state_example [] false) =
        some { sync_state_example [] false with
          dp_mos_used_delta := wrap_i64 (wrap_i64 (0 + 4096) + 8192)
          dp_mos_compressed_delta := wrap_i64 (wrap_i64 (0 + 512) + 1024)
          dp_mos_uncompressed_delta := wrap_i64 (wrap_i64 (0 + 512) + 1024) }) ∧
    (mos_space_fold (collab_example 1)
        { sync_state_example [] false with
          dp_mos_used_delta := wrap_i64 (wrap_i64 (0 + 4096) + 8192)
          dp_mos_compressed_delta := wrap_i64 (wrap_i64 (0 + 512) + 1024)
          dp_mos_uncompressed_delta := wrap_i64 (wrap_i64 (0 + 512) + 1024) }).2 =
      [sync_event.dsl_dir_diduse_space
        (([(4096, 512, 512), (8192, 1024, 1024)] : List (Int × Int × Int)).map
          (fun a => a.1)).sum
        (([(4096, 512, 512), (8192, 1024, 1024)] : List (Int × Int × Int)).map
          (fun a => a.2.1)).sum
        (([(4096, 512, 512), (8192, 1024, 1024)] : List (Int × Int × Int)).map
          (fun a => a.2.2)).sum] :=
  ⟨⟨by decide, rfl⟩,
    (((mos_delta_fold true [(4096, 512, 512), (8192, 1024, 1024)]
      (sync_state_example [] false) _ (by decide) rfl).2.2.1 (by decide)).2
        (collab_example 1)).1 (by decide)⟩

/-! ## Lock discipline -/

/-- C15 (lock discipline): for every lock state, a context that already holds
the configuration lock for read and calls `dsl_pool_config_enter` again fails
the assertion and does not acquire the lock a second time. A context that does
not hold it for read passes the assertion; it acquires the lock for read as
soon as no writer holds it (while a writer does, the call blocks and has not
touched the lock), and once it has acquired it, `dsl_pool_config_held` is true
for it and a following `dsl_pool_config_exit` with the same tag returns the lock
to its prior state. -/
theorem config_lock_discipline (l : rrwlock) (ctx tag : Nat) :
    (rrw_held_reader l ctx = true →
      dsl_pool_config_enter l ctx tag = enter_result.assertion_failed ∧
      ∀ l1, dsl_pool_config_enter l ctx tag ≠ enter_result.acquired l1) ∧
    (rrw_held_reader l ctx = false →
      dsl_pool_config_enter l ctx tag ≠ enter_result.assertion_failed ∧
      (l.rr_writer = none →
        ∃ l1, dsl_pool_config_enter l ctx tag = enter_result.acquired l1 ∧
          rrw_held_reader l1 ctx = true ∧
          dsl_pool_config_held l1 ctx = true ∧
          dsl_pool_config_exit l1 ctx tag = some l) ∧
      (l.rr_writer ≠ none → dsl_pool_config_enter l ctx tag = enter_result.blocked) ∧
      (∀ l1, dsl_pool_config_enter l ctx tag = enter_result.acquired l1 →
        rrw_held_reader l1 ctx = true ∧ dsl_pool_config_exit l1 ctx tag = some l)) := by
  have hacq : rrw_held_reader l ctx = false → l.rr_writer = none →
      dsl_pool_config_enter l ctx tag =
        enter_result.acquired { l with rr_readers := (ctx, tag) :: l.rr_readers } := by
    intro hfree hw
    simp [dsl_pool_config_enter, rrw_enter_reader, hfree, hw]
  have hheld : rrw_held_reader { l with rr_readers := (ctx, tag) :: l.rr_readers } ctx = true := by
    simp [rrw_held_reader]
  have hexit : dsl_pool_config_exit { l with rr_readers := (ctx, tag) :: l.rr_readers } ctx tag =
      some l := by
    simp [dsl_pool_config_exit, rrw_exit]
  have hblock : rrw_held_reader l ctx = false → l.rr_writer ≠ none →
      dsl_pool_config_enter l ctx tag = enter_result.blocked := by
    intro hfree hw
    simp [dsl_pool_config_enter, rrw_enter_reader, hfree, hw]
  constructor
  · intro hold
    have hfail : dsl_pool_config_enter l ctx tag = enter_result.assertion_failed := by
      simp [dsl_pool_config_enter, hold]
    exact ⟨hfail, fun l1 h => by rw [hfail] at h; exact absurd h (by simp)⟩
  · intro hfree
    refine ⟨?_, ?_, hblock hfree, ?_⟩
    · by_cases hw : l.rr_writer = none
      · rw [hacq hfree hw]; simp
      · rw [hblock hfree hw]; simp
    · intro hw
      refine ⟨_, hacq hfree hw, hheld, ?_, hexit⟩
      simp [dsl_pool_config_held, hheld]
    · intro l1 h1
      by_cases hw : l.rr_writer = none
      · rw [hacq hfree hw] at h1
        have hl1 : l1 = { l with rr_readers := (ctx, tag) :: l.rr_readers } :=
          (enter_result.acquired.inj h1).symm
        subst hl1
        exact ⟨hheld, hexit⟩
      · rw [hblock hfree hw] at h1
        exact absurd h1 (by simp)

/-- Instance of `config_lock_discipline`: context 1 holds the lock for read
with tag 9 and enters again with tag 10; the assertion fails. -/
theorem config_lock_discipline_witness :
    rrw_held_reader { rr_readers := [(1, 9)], rr_writer := none } 1 = true ∧
    dsl_pool_config_enter { rr_readers := [(1, 9)], rr_writer := none } 1 10 =
      enter_result.assertion_failed :=
  ⟨by decide,
    ((config_lock_discipline { rr_readers := [(1, 9)], rr_writer := none } 1 10).1
      (by decide)).1⟩

end DslPool
